import Mathlib

/-
Shallow embedding of the pydantic-vcon repository (src/pydantic_vcon/models.py):
the vCon data model, per-entity construction-time validators, the whole-document
is_valid pass, the mutation helpers, and the JSON serialization layer
(to_json / build_from_json, modelled at the JSON-tree level: the Python
json.dumps / json.loads pair is the identity between a tree and its text form).
-/

namespace Vcon

/-! ### Decimal and hexadecimal digit rendering, as Python string formatting -/

/-- Character for a decimal digit value below ten. -/
def decChar (d : Nat) : Char := Char.ofNat (48 + d)

/-- Big-endian decimal character rendering of a natural number; empty for zero. -/
def natChars (n : Nat) : List Char := ((Nat.digits 10 n).map decChar).reverse

/-- Zero-padded fixed-width decimal rendering, as Python %0kd formatting
produces for values below ten to the k. -/
def padChars (k n : Nat) : List Char :=
  List.replicate (k - (natChars n).length) '0' ++ natChars n

def isDig (c : Char) : Bool := 48 ≤ c.toNat && c.toNat ≤ 57

def digVal (c : Char) : Nat := c.toNat - 48

/-- Horner evaluation of big-endian decimal digit characters. -/
def charsVal (cs : List Char) : Nat := cs.foldl (fun a c => 10 * a + digVal c) 0

/-- Read exactly k decimal digit characters, returning their value and the rest. -/
def parseFixed (k : Nat) (cs : List Char) : Option (Nat × List Char) :=
  if (cs.take k).length = k && (cs.take k).all isDig
  then some (charsVal (cs.take k), cs.drop k) else Option.none

theorem decChar_isDig {d : Nat} (h : d < 10) : isDig (decChar d) = true := by
  interval_cases d <;> decide

theorem digVal_decChar {d : Nat} (h : d < 10) : digVal (decChar d) = d := by
  interval_cases d <;> decide

theorem foldl_digitChars (ds : List Nat) (a : Nat) (hds : ∀ d ∈ ds, d < 10) :
    List.foldl (fun a c => 10 * a + digVal c) a ((ds.map decChar).reverse)
      = a * 10 ^ ds.length + Nat.ofDigits 10 ds := by
  induction ds generalizing a with
  | nil => simp [Nat.ofDigits]
  | cons d rest ih =>
      have hd : d < 10 := hds d (by simp)
      have hr : ∀ x ∈ rest, x < 10 := fun x hx => hds x (by simp [hx])
      simp only [List.map_cons, List.reverse_cons]
      rw [List.foldl_append, ih a hr]
      simp only [List.foldl_cons, List.foldl_nil, Nat.ofDigits_cons,
        digVal_decChar hd, List.length_cons]
      ring

theorem natChars_val (n : Nat) : charsVal (natChars n) = n := by
  have h := foldl_digitChars (Nat.digits 10 n) 0
    (fun d hd => Nat.digits_lt_base (by norm_num) hd)
  simpa [charsVal, natChars, Nat.ofDigits_digits] using h

theorem charsVal_zeros_prefix (k : Nat) (cs : List Char) :
    charsVal (List.replicate k '0' ++ cs) = charsVal cs := by
  have : List.foldl (fun a c => 10 * a + digVal c) 0 (List.replicate k '0') = 0 := by
    induction k with
    | zero => rfl
    | succ m ih => simpa [List.replicate_succ] using ih
  simp [charsVal, List.foldl_append, this]

theorem padChars_val (k n : Nat) : charsVal (padChars k n) = n := by
  rw [padChars, charsVal_zeros_prefix, natChars_val]

theorem natChars_length_le {k n : Nat} (h : n < 10 ^ k) :
    (natChars n).length ≤ k := by
  rcases Nat.eq_zero_or_pos n with h0 | h0
  · subst h0; simp [natChars]
  · have hlen := Nat.digits_len 10 n (by norm_num) h0.ne'
    have hlog := Nat.log_lt_of_lt_pow h0.ne' h
    simp only [natChars, List.length_reverse, List.length_map]
    omega

theorem padChars_length {k n : Nat} (h : n < 10 ^ k) :
    (padChars k n).length = k := by
  have := natChars_length_le h
  simp only [padChars, List.length_append, List.length_replicate]
  omega

theorem padChars_all_dig (k n : Nat) : (padChars k n).all isDig = true := by
  simp only [padChars, List.all_append, Bool.and_eq_true, List.all_eq_true]
  constructor
  · intro c hc
    have : c = '0' := List.eq_of_mem_replicate hc
    subst this; decide
  · intro c hc
    simp only [natChars, List.mem_reverse, List.mem_map] at hc
    obtain ⟨d, hd, rfl⟩ := hc
    exact decChar_isDig (Nat.digits_lt_base (by norm_num) hd)

theorem parseFixed_pad {k n : Nat} (h : n < 10 ^ k) (rest : List Char) :
    parseFixed k (padChars k n ++ rest) = some (n, rest) := by
  have hlen : (padChars k n).length = k := padChars_length h
  have htake := List.take_left (padChars k n) rest
  have hdrop := List.drop_left (padChars k n) rest
  rw [hlen] at htake hdrop
  rw [parseFixed, htake, hdrop]
  simp [hlen, padChars_all_dig, padChars_val]

/-! ### Naive datetime values, Python datetime.isoformat and
datetime.fromisoformat (for the strings isoformat produces) -/

structure DateTime where
  year : Nat
  month : Nat
  day : Nat
  hour : Nat
  minute : Nat
  second : Nat
  microsecond : Nat
deriving DecidableEq, Repr

def isLeap (y : Nat) : Bool := (y % 4 = 0 && y % 100 ≠ 0) || y % 400 = 0

def daysInMonth (y m : Nat) : Nat :=
  if m = 2 then (if isLeap y then 29 else 28)
  else if m = 4 || m = 6 || m = 9 || m = 11 then 30 else 31

/-- The field ranges enforced by the Python datetime constructor. -/
def DateTime.validB (t : DateTime) : Bool :=
  1 ≤ t.year && t.year ≤ 9999 && 1 ≤ t.month && t.month ≤ 12 &&
  1 ≤ t.day && t.day ≤ daysInMonth t.year t.month &&
  t.hour ≤ 23 && t.minute ≤ 59 && t.second ≤ 59 && t.microsecond ≤ 999999

/-- Python datetime.isoformat for a naive datetime: the fraction part is
omitted exactly when microsecond is zero. -/
def isoChars (t : DateTime) : List Char :=
  padChars 4 t.year ++ '-' :: padChars 2 t.month ++ '-' :: padChars 2 t.day
  ++ 'T' :: padChars 2 t.hour ++ ':' :: padChars 2 t.minute ++ ':' :: padChars 2 t.second
  ++ (if t.microsecond = 0 then [] else '.' :: padChars 6 t.microsecond)

def isoformat (t : DateTime) : String := ⟨isoChars t⟩

def expectChar (c : Char) : List Char → Option (List Char)
  | [] => Option.none
  | x :: rest => if x = c then some rest else Option.none

/-- Python datetime.fromisoformat, on the shapes datetime.isoformat emits
for naive datetimes (with or without a microsecond fraction); any other
input is rejected. -/
def parseIsoChars (cs : List Char) : Option DateTime := do
  let (y, cs) ← parseFixed 4 cs
  let cs ← expectChar '-' cs
  let (mo, cs) ← parseFixed 2 cs
  let cs ← expectChar '-' cs
  let (d, cs) ← parseFixed 2 cs
  let cs ← expectChar 'T' cs
  let (h, cs) ← parseFixed 2 cs
  let cs ← expectChar ':' cs
  let (mi, cs) ← parseFixed 2 cs
  let cs ← expectChar ':' cs
  let (s, cs) ← parseFixed 2 cs
  let us ← (match cs with
    | [] => some 0
    | c :: rest =>
        if c = '.' then
          (match parseFixed 6 rest with
            | some (us, []) => some us
            | _ => Option.none)
        else Option.none)
  let t : DateTime := ⟨y, mo, d, h, mi, s, us⟩
  if t.validB then some t else Option.none

def fromisoformat (s : String) : Option DateTime := parseIsoChars s.data

theorem expectChar_cons (c : Char) (rest : List Char) :
    expectChar c (c :: rest) = some rest := by
  simp [expectChar]

set_option maxHeartbeats 1600000 in
theorem parseIso_isoformat {t : DateTime} (h : t.validB = true) :
    fromisoformat (isoformat t) = some t := by
  have hb : 1 ≤ t.year ∧ t.year ≤ 9999 ∧ 1 ≤ t.month ∧ t.month ≤ 12 ∧
      1 ≤ t.day ∧ t.day ≤ daysInMonth t.year t.month ∧
      t.hour ≤ 23 ∧ t.minute ≤ 59 ∧ t.second ≤ 59 ∧ t.microsecond ≤ 999999 := by
    simpa [DateTime.validB, Bool.and_eq_true, decide_eq_true_eq, and_assoc] using h
  obtain ⟨h1, h2, h3, h4, h5, h6, h7, h8, h9, h10⟩ := hb
  have hy : t.year < 10 ^ 4 := by norm_num; omega
  have hmo : t.month < 10 ^ 2 := by norm_num; omega
  have hd : t.day < 10 ^ 2 := by
    have : daysInMonth t.year t.month ≤ 31 := by
      unfold daysInMonth
      split <;> [split <;> norm_num; split <;> norm_num]
    norm_num; omega
  have hh : t.hour < 10 ^ 2 := by norm_num; omega
  have hmi : t.minute < 10 ^ 2 := by norm_num; omega
  have hs : t.second < 10 ^ 2 := by norm_num; omega
  have hus : t.microsecond < 10 ^ 6 := by norm_num; omega
  have hsec : parseFixed 2 (padChars 2 t.second) = some (t.second, []) := by
    simpa using parseFixed_pad hs ([] : List Char)
  have husp : parseFixed 6 (padChars 6 t.microsecond) = some (t.microsecond, []) := by
    simpa using parseFixed_pad hus ([] : List Char)
  rw [fromisoformat, isoformat]
  show parseIsoChars (isoChars t) = some t
  rw [parseIsoChars, isoChars]
  by_cases hz : t.microsecond = 0
  · rw [if_pos hz]
    simp only [List.append_nil, List.append_assoc, List.cons_append,
      Option.bind_eq_bind, parseFixed_pad hy, parseFixed_pad hmo, parseFixed_pad hd,
      parseFixed_pad hh, parseFixed_pad hmi, hsec, Option.some_bind, expectChar_cons]
    have ht : DateTime.mk t.year t.month t.day t.hour t.minute t.second 0 = t := by
      rw [← hz]
    rw [ht, if_pos h]
  · rw [if_neg hz]
    simp only [List.append_assoc, List.cons_append, Option.bind_eq_bind,
      parseFixed_pad hy, parseFixed_pad hmo, parseFixed_pad hd, parseFixed_pad hh,
      parseFixed_pad hmi, parseFixed_pad hs, husp, Option.some_bind, expectChar_cons,
      if_pos]
    rw [if_pos h]

/-! ### str(uuid.uuid4()): canonical 8-4-4-4-12 hexadecimal rendering -/

/-- Character for a hexadecimal digit value below sixteen (lower case). -/
def hexChar (d : Nat) : Char :=
  if d < 10 then Char.ofNat (48 + d) else Char.ofNat (87 + d)

def hexNatChars (n : Nat) : List Char := ((Nat.digits 16 n).map hexChar).reverse

def padHexChars (k n : Nat) : List Char :=
  List.replicate (k - (hexNatChars n).length) '0' ++ hexNatChars n

/-- str(uuid.uuid4()) for a 128 bit random value r: the canonical 8-4-4-4-12
lower-case hexadecimal rendering with hyphens. -/
def strUuid4 (r : Nat) : String :=
  ⟨padHexChars 8 (r % 2 ^ 32) ++ '-' :: padHexChars 4 (r / 2 ^ 32 % 2 ^ 16)
    ++ '-' :: padHexChars 4 (r / 2 ^ 48 % 2 ^ 16)
    ++ '-' :: padHexChars 4 (r / 2 ^ 64 % 2 ^ 16)
    ++ '-' :: padHexChars 12 (r / 2 ^ 80 % 2 ^ 48)⟩

theorem hexNatChars_length_le {k n : Nat} (h : n < 16 ^ k) :
    (hexNatChars n).length ≤ k := by
  rcases Nat.eq_zero_or_pos n with h0 | h0
  · subst h0; simp [hexNatChars]
  · have hlen := Nat.digits_len 16 n (by norm_num) h0.ne'
    have hlog := Nat.log_lt_of_lt_pow h0.ne' h
    simp only [hexNatChars, List.length_reverse, List.length_map]
    omega

theorem padHexChars_length {k n : Nat} (h : n < 16 ^ k) :
    (padHexChars k n).length = k := by
  have := hexNatChars_length_le h
  simp only [padHexChars, List.length_append, List.length_replicate]
  omega

theorem strUuid4_length (r : Nat) : (strUuid4 r).length = 36 := by
  have h8 : (padHexChars 8 (r % 2 ^ 32)).length = 8 :=
    padHexChars_length (by have := Nat.mod_lt r (show 0 < 2 ^ 32 by norm_num); norm_num; omega)
  have hb : (padHexChars 4 (r / 2 ^ 32 % 2 ^ 16)).length = 4 :=
    padHexChars_length (by have := Nat.mod_lt (r / 2 ^ 32) (show 0 < 2 ^ 16 by norm_num); norm_num; omega)
  have hc : (padHexChars 4 (r / 2 ^ 48 % 2 ^ 16)).length = 4 :=
    padHexChars_length (by have := Nat.mod_lt (r / 2 ^ 48) (show 0 < 2 ^ 16 by norm_num); norm_num; omega)
  have hd : (padHexChars 4 (r / 2 ^ 64 % 2 ^ 16)).length = 4 :=
    padHexChars_length (by have := Nat.mod_lt (r / 2 ^ 64) (show 0 < 2 ^ 16 by norm_num); norm_num; omega)
  have he : (padHexChars 12 (r / 2 ^ 80 % 2 ^ 48)).length = 12 :=
    padHexChars_length (by have := Nat.mod_lt (r / 2 ^ 80) (show 0 < 2 ^ 48 by norm_num); norm_num; omega)
  simp only [strUuid4, String.length, List.length_append, List.length_cons,
    h8, hb, hc, hd, he]

theorem strUuid4_ne_empty (r : Nat) : strUuid4 r ≠ "" := by
  intro h
  have := congrArg String.length h
  rw [strUuid4_length] at this
  simp [String.length] at this

/-! ### Enumerations (models.py: VConVersion, Encoding, DialogType,
Disposition, PartyHistory events), with their wire strings -/

inductive VConVersion where
  | v0_0_2
deriving DecidableEq

def VConVersion.toStr : VConVersion → String
  | .v0_0_2 => "0.0.2"

def decodeVConVersion (s : String) : Option VConVersion :=
  if s = "0.0.2" then some VConVersion.v0_0_2 else Option.none

inductive Encoding where
  | base64url
  | json
  | none
deriving DecidableEq

def Encoding.toStr : Encoding → String
  | .base64url => "base64url"
  | .json => "json"
  | .none => "none"

def decodeEncoding (s : String) : Option Encoding :=
  if s = "base64url" then some Encoding.base64url
  else if s = "json" then some Encoding.json
  else if s = "none" then some Encoding.none
  else Option.none

inductive DialogType where
  | recording
  | text
  | transfer
  | incomplete
deriving DecidableEq

def DialogType.toStr : DialogType → String
  | .recording => "recording"
  | .text => "text"
  | .transfer => "transfer"
  | .incomplete => "incomplete"

def decodeDialogType (s : String) : Option DialogType :=
  if s = "recording" then some DialogType.recording
  else if s = "text" then some DialogType.text
  else if s = "transfer" then some DialogType.transfer
  else if s = "incomplete" then some DialogType.incomplete
  else Option.none

inductive Disposition where
  | no_answer
  | congestion
  | failed
  | busy
  | hung_up
  | voicemail_no_message
deriving DecidableEq

def Disposition.toStr : Disposition → String
  | .no_answer => "no-answer"
  | .congestion => "congestion"
  | .failed => "failed"
  | .busy => "busy"
  | .hung_up => "hung-up"
  | .voicemail_no_message => "voicemail-no-message"

def decodeDisposition (s : String) : Option Disposition :=
  if s = "no-answer" then some Disposition.no_answer
  else if s = "congestion" then some Disposition.congestion
  else if s = "failed" then some Disposition.failed
  else if s = "busy" then some Disposition.busy
  else if s = "hung-up" then some Disposition.hung_up
  else if s = "voicemail-no-message" then some Disposition.voicemail_no_message
  else Option.none

inductive PHEvent where
  | join
  | drop
  | hold
  | unhold
  | mute
  | unmute
deriving DecidableEq

def PHEvent.toStr : PHEvent → String
  | .join => "join"
  | .drop => "drop"
  | .hold => "hold"
  | .unhold => "unhold"
  | .mute => "mute"
  | .unmute => "unmute"

def decodePHEvent (s : String) : Option PHEvent :=
  if s = "join" then some PHEvent.join
  else if s = "drop" then some PHEvent.drop
  else if s = "hold" then some PHEvent.hold
  else if s = "unhold" then some PHEvent.unhold
  else if s = "mute" then some PHEvent.mute
  else if s = "unmute" then some PHEvent.unmute
  else Option.none

/-! ### Type-erased and union-typed values -/

/-- Python float values as they appear in JSON, as an opaque decimal carrier:
json.dumps renders a float with repr and json.loads parses that text back to
the identical float, so serialization is the identity on this carrier. -/
structure PyFloat where
  mant : Int
  exp10 : Int
deriving DecidableEq

/-- Union[str, List[str]] (content_hash fields). -/
inductive ContentHash where
  | one (s : String)
  | many (l : List String)
deriving DecidableEq

/-- Union[datetime, str]. -/
inductive DtOrStr where
  | dt (t : DateTime)
  | str (s : String)
deriving DecidableEq

/-- JSON-compatible type-erased values (the Any-typed fields). A JSON null
stored directly in an Optional field of a model is Python None, which the
embedding represents as Option.none; the null constructor only occurs nested
inside arrays and objects. -/
inductive JsonValue where
  | null
  | bool (b : Bool)
  | num (n : Int)
  | fnum (f : PyFloat)
  | str (s : String)
  | arr (items : List JsonValue)
  | obj (fields : List (String × JsonValue))

/-- A JSON object (a Python Dict[str, Any] with insertion order). -/
abbrev JsonObj := List (String × JsonValue)

/-- One item of the list form of Dialog.parties: a party index or a nested
index list. -/
inductive PartyRefItem where
  | idx (i : Int)
  | sub (l : List Int)
deriving DecidableEq

/-- Dialog.parties: Union[int, List[int], List[Union[int, List[int]]]]. The
two list alternatives of the source union are one constructor here, since
every operation in the source treats list items uniformly one by one. -/
inductive PartiesVal where
  | scalar (i : Int)
  | plist (items : List PartyRefItem)
deriving DecidableEq

/-- Analysis.dialog: Union[int, List[int]]. -/
inductive DialogRef where
  | one (i : Int)
  | many (l : List Int)
deriving DecidableEq

/-- Attachment.body: Union[str, Dict[str, Any], List[Any]]. -/
inductive AttachBody where
  | str (s : String)
  | obj (o : JsonObj)
  | arr (l : List JsonValue)

/-- GroupItem.encoding: Literal["json"]. -/
inductive JsonLit where
  | json
deriving DecidableEq

/-! ### Entity records (validated instances, as constructed by the source) -/

structure CivicAddress where
  country : Option String
  a1 : Option String
  a2 : Option String
  a3 : Option String
  a4 : Option String
  a5 : Option String
  a6 : Option String
  prd : Option String
  pod : Option String
  sts : Option String
  hno : Option String
  hns : Option String
  lmk : Option String
  loc : Option String
  flr : Option String
  nam : Option String
  pc : Option String
deriving DecidableEq

structure PartyHistory where
  party : Int
  event : PHEvent
  time : DtOrStr
deriving DecidableEq

structure Party where
  tel : Option String
  stir : Option String
  mailto : Option String
  name : Option String
  validation : Option String
  gmlpos : Option String
  civicaddress : Option CivicAddress
  uuid : Option String
  role : Option String
  contact_list : Option String
  meta : Option JsonObj

structure Dialog where
  type : DialogType
  start : DtOrStr
  duration : Option PyFloat
  parties : PartiesVal
  originator : Option Int
  mediatype : Option String
  filename : Option String
  body : Option String
  encoding : Option Encoding
  url : Option String
  content_hash : Option ContentHash
  disposition : Option Disposition
  party_history : Option (List PartyHistory)
  transferee : Option Int
  transferor : Option Int
  transfer_target : Option Int
  original : Option Int
  consultation : Option Int
  target_dialog : Option Int
  campaign : Option String
  interaction_type : Option String
  interaction_id : Option String
  skill : Option String
  application : Option String
  message_id : Option String
  meta : Option JsonObj

structure Analysis where
  type : String
  dialog : Option DialogRef
  mediatype : Option String
  filename : Option String
  vendor : String
  product : Option String
  schema : Option String
  body : Option JsonValue
  encoding : Encoding
  url : Option String
  content_hash : Option ContentHash

structure Attachment where
  type : String
  start : Option DateTime
  party : Option Int
  mediatype : Option String
  filename : Option String
  dialog : Option Int
  body : Option AttachBody
  encoding : Option Encoding
  url : Option String
  content_hash : Option ContentHash

structure GroupItem where
  uuid : Option String
  body : Option String
  encoding : Option JsonLit
  url : Option String
  content_hash : Option ContentHash
deriving DecidableEq

structure Redacted where
  uuid : String
  type : Option String
  body : Option String
  encoding : Option Encoding
  url : Option String
  content_hash : Option ContentHash
deriving DecidableEq

structure Appended where
  uuid : Option String
  body : Option String
  encoding : Option Encoding
  url : Option String
  content_hash : Option ContentHash
deriving DecidableEq

structure VCon where
  vcon : VConVersion
  uuid : String
  created_at : DateTime
  updated_at : Option DateTime
  subject : Option String
  redacted : Option Redacted
  appended : Option Appended
  group : Option (List GroupItem)
  parties : List Party
  dialog : Option (List Dialog)
  analysis : Option (List Analysis)
  attachments : Option (List Attachment)
  meta : Option JsonObj

/-! ### Raw field sets, as seen by the constructors

A construction input is the decoded JSON object (or the keyword argument
set of a direct Python call; the str-Enum members of the source compare
equal to their wire strings, so strings model both paths). A key that is
absent is Option.none. For the six transfer fields of Dialog the distinction
between an absent key and an explicit null is observable, because pydantic
runs field validators only for explicitly provided values; those fields are
doubly optional here: none = key absent, some Option.none = explicit null. -/

structure PartyHistoryJson where
  party : Option Int
  event : Option String
  time : Option DtOrStr

structure PartyJson where
  tel : Option String
  stir : Option String
  mailto : Option String
  name : Option String
  validation : Option String
  gmlpos : Option String
  civicaddress : Option CivicAddress
  uuid : Option String
  role : Option String
  contact_list : Option String
  meta : Option JsonObj

structure DialogJson where
  type : Option String
  start : Option DtOrStr
  duration : Option PyFloat
  parties : Option PartiesVal
  originator : Option Int
  mediatype : Option String
  filename : Option String
  body : Option String
  encoding : Option String
  url : Option String
  content_hash : Option ContentHash
  disposition : Option String
  party_history : Option (List PartyHistoryJson)
  transferee : Option (Option Int)
  transferor : Option (Option Int)
  transfer_target : Option (Option Int)
  original : Option (Option Int)
  consultation : Option (Option Int)
  target_dialog : Option (Option Int)
  campaign : Option String
  interaction_type : Option String
  interaction_id : Option String
  skill : Option String
  application : Option String
  message_id : Option String
  meta : Option JsonObj

structure AnalysisJson where
  type : Option String
  dialog : Option DialogRef
  mediatype : Option String
  filename : Option String
  vendor : Option String
  product : Option String
  schema : Option String
  body : Option JsonValue
  encoding : Option String
  url : Option String
  content_hash : Option ContentHash

structure AttachmentJson where
  type : Option String
  start : Option DtOrStr
  party : Option Int
  mediatype : Option String
  filename : Option String
  dialog : Option Int
  body : Option AttachBody
  encoding : Option String
  url : Option String
  content_hash : Option ContentHash

structure GroupItemJson where
  uuid : Option String
  body : Option String
  encoding : Option String
  url : Option String
  content_hash : Option ContentHash

structure RedactedJson where
  uuid : Option String
  type : Option String
  body : Option String
  encoding : Option String
  url : Option String
  content_hash : Option ContentHash

structure AppendedJson where
  uuid : Option String
  body : Option String
  encoding : Option String
  url : Option String
  content_hash : Option ContentHash

structure VConJson where
  vcon : Option String
  uuid : Option String
  created_at : Option DtOrStr
  updated_at : Option DtOrStr
  subject : Option String
  redacted : Option RedactedJson
  appended : Option AppendedJson
  group : Option (List GroupItemJson)
  parties : Option (List PartyJson)
  dialog : Option (Option (List DialogJson))
  analysis : Option (Option (List AnalysisJson))
  attachments : Option (Option (List AttachmentJson))
  meta : Option JsonObj

/-! ### Entity constructors: pydantic type validation plus the validators
of models.py, in their execution order -/

/-- Validate each element of a list in order, failing on the first error
(the per-item re-run of the entity constructors during decode). -/
def mapME {a b : Type} (f : a → Except String b) : List a → Except String (List b)
  | [] => Except.ok []
  | x :: rest => do
      let y ← f x
      let ys ← mapME f rest
      Except.ok (y :: ys)

/-- A missing required field aborts construction (pydantic Field required). -/
def req {α : Type} (nm : String) : Option α → Except String α
  | some a => Except.ok a
  | Option.none => Except.error ("Field required: " ++ nm)

def decodeOptEncoding : Option String → Except String (Option Encoding)
  | Option.none => Except.ok Option.none
  | some s =>
      match decodeEncoding s with
      | some e => Except.ok (some e)
      | Option.none => Except.error ("Input should be a valid Encoding: " ++ s)

def parseCivicAddress (j : CivicAddress) : Except String CivicAddress :=
  Except.ok j

def parsePartyHistory (j : PartyHistoryJson) : Except String PartyHistory := do
  let p ← req "party" j.party
  let evs ← req "event" j.event
  let ev ← (match decodePHEvent evs with
    | some e => Except.ok e
    | Option.none => Except.error ("Input should be a valid event: " ++ evs))
  let tm ← req "time" j.time
  Except.ok ⟨p, ev, tm⟩

def parseParty (j : PartyJson) : Except String Party := do
  let civ ← (match j.civicaddress with
    | Option.none => Except.ok (Option.none : Option CivicAddress)
    | some c => do
        let c2 ← parseCivicAddress c
        Except.ok (some c2))
  Except.ok ⟨j.tel, j.stir, j.mailto, j.name, j.validation, j.gmlpos, civ,
    j.uuid, j.role, j.contact_list, j.meta⟩

/-- Python truthiness of the raw disposition value: absent or the empty
string is falsy. -/
def dispTruthy : Option String → Bool
  | Option.none => false
  | some s => s ≠ ""

/-- Dialog model_validator(mode=before): validate_dialog_fields, running on
the raw field set before any field validation. -/
def validate_dialog_fields (j : DialogJson) : Except String Unit :=
  match j.type with
  | Option.none => Except.ok ()
  | some ty =>
      if ty = "" then Except.ok ()
      else if ty = "incomplete" then
        if ¬ dispTruthy j.disposition then
          Except.error ("disposition required for incomplete dialogs")
        else if j.body.isSome || j.url.isSome then
          Except.error ("body or url should not be present for incomplete dialogs")
        else Except.ok ()
      else
        if j.disposition.isSome then
          Except.error ("disposition should not be present for non-incomplete dialogs")
        else if ty = "recording" || ty = "text" then
          if (j.body.isSome && j.encoding.isSome)
              || (j.url.isSome && j.content_hash.isSome) then Except.ok ()
          else Except.error
            ("Dialog must have either inline (body + encoding) or external (url + content_hash) content")
        else Except.ok ()

/-- Dialog field validator validate_transfer_fields for one of the six
transfer fields: pydantic invokes it only when the field was explicitly
provided (an omitted field keeps its None default unvalidated); required5
states whether the field is in the required-for-transfer list (consultation
is not). info.data carries the already-validated type. -/
def validate_transfer_fields (ty : DialogType) (field_name : String)
    (required5 : Bool) : Option (Option Int) → Except String (Option Int)
  | Option.none => Except.ok Option.none
  | some v =>
      if ty = DialogType.transfer ∧ v.isNone ∧ required5 then
        Except.error (field_name ++ " required for transfer dialogs")
      else if ty ≠ DialogType.transfer ∧ v.isSome then
        Except.error (field_name ++ " should not be present for non-transfer dialogs")
      else Except.ok v

def parseDialog (j : DialogJson) : Except String Dialog := do
  validate_dialog_fields j
  let tys ← req "type" j.type
  let dty ← (match decodeDialogType tys with
    | some d => Except.ok d
    | Option.none => Except.error ("Input should be a valid DialogType: " ++ tys))
  let st ← req "start" j.start
  let pa ← req "parties" j.parties
  let enc ← decodeOptEncoding j.encoding
  let disp ← (match j.disposition with
    | Option.none => Except.ok (Option.none : Option Disposition)
    | some s =>
        match decodeDisposition s with
        | some d => Except.ok (some d)
        | Option.none => Except.error ("Input should be a valid Disposition: " ++ s))
  let ph ← (match j.party_history with
    | Option.none => Except.ok (Option.none : Option (List PartyHistory))
    | some l => do
        let l2 ← mapME parsePartyHistory l
        Except.ok (some l2))
  let tfee ← validate_transfer_fields dty "transferee" true j.transferee
  let tfor ← validate_transfer_fields dty "transferor" true j.transferor
  let ttgt ← validate_transfer_fields dty "transfer_target" true j.transfer_target
  let orig ← validate_transfer_fields dty "original" true j.original
  let consu ← validate_transfer_fields dty "consultation" false j.consultation
  let tdlg ← validate_transfer_fields dty "target_dialog" true j.target_dialog
  Except.ok ⟨dty, st, j.duration, pa, j.originator, j.mediatype, j.filename,
    j.body, enc, j.url, j.content_hash, disp, ph, tfee, tfor, ttgt, orig, consu,
    tdlg, j.campaign, j.interaction_type, j.interaction_id, j.skill,
    j.application, j.message_id, j.meta⟩

/-- Analysis model_validator(mode=after): validate_analysis_content. -/
def validate_analysis_content (a : Analysis) : Except String Analysis :=
  let has_inline := a.body.isSome
  let has_external := a.url.isSome && a.content_hash.isSome
  if ¬ (has_inline || has_external) then
    Except.error
      ("Analysis must have either inline (body) or external (url + content_hash) content")
  else if a.encoding = Encoding.json ∧ has_inline then
    match a.body with
    | some (JsonValue.obj _) => Except.ok a
    | some (JsonValue.arr _) => Except.ok a
    | Option.none => Except.ok a
    | some _ => Except.error ("JSON body must be a dict or list")
  else Except.ok a

def parseAnalysis (j : AnalysisJson) : Except String Analysis := do
  let ty ← req "type" j.type
  let vd ← req "vendor" j.vendor
  let encs ← req "encoding" j.encoding
  let enc ← (match decodeEncoding encs with
    | some e => Except.ok e
    | Option.none => Except.error ("Input should be a valid Encoding: " ++ encs))
  validate_analysis_content ⟨ty, j.dialog, j.mediatype, j.filename, vd,
    j.product, j.schema, j.body, enc, j.url, j.content_hash⟩

/-- Attachment model_validator(mode=after): validate_attachment_content. -/
def validate_attachment_content (a : Attachment) : Except String Attachment :=
  if (a.body.isSome && a.encoding.isSome) || (a.url.isSome && a.content_hash.isSome)
  then Except.ok a
  else Except.error
    ("Attachment must have either inline (body + encoding) or external (url + content_hash) content")

def parseAttachment (j : AttachmentJson) : Except String Attachment := do
  let ty ← req "type" j.type
  let st ← (match j.start with
    | Option.none => Except.ok (Option.none : Option DateTime)
    | some (DtOrStr.dt t) => Except.ok (some t)
    | some (DtOrStr.str s) =>
        match fromisoformat s with
        | some t => Except.ok (some t)
        | Option.none => Except.error ("Input should be a valid datetime: " ++ s))
  let enc ← decodeOptEncoding j.encoding
  validate_attachment_content ⟨ty, st, j.party, j.mediatype, j.filename,
    j.dialog, j.body, enc, j.url, j.content_hash⟩

/-- GroupItem model_validator(mode=after): validate_group_item_content. -/
def validate_group_item_content (g : GroupItem) : Except String GroupItem :=
  if g.uuid.isSome || (g.body.isSome && g.encoding.isSome)
      || (g.url.isSome && g.content_hash.isSome) then Except.ok g
  else Except.error
    ("GroupItem must have either uuid, inline (body + encoding), or external (url + content_hash) content")

def parseGroupItem (j : GroupItemJson) : Except String GroupItem := do
  let enc ← (match j.encoding with
    | Option.none => Except.ok (Option.none : Option JsonLit)
    | some s =>
        if s = "json" then Except.ok (some JsonLit.json)
        else Except.error ("Input should be json: " ++ s))
  validate_group_item_content ⟨j.uuid, j.body, enc, j.url, j.content_hash⟩

def parseRedacted (j : RedactedJson) : Except String Redacted := do
  let uid ← req "uuid" j.uuid
  let enc ← decodeOptEncoding j.encoding
  Except.ok ⟨uid, j.type, j.body, enc, j.url, j.content_hash⟩

/-- Appended model_validator(mode=after): validate_appended_content. -/
def validate_appended_content (a : Appended) : Except String Appended :=
  if a.uuid.isSome || (a.body.isSome && a.encoding.isSome)
      || (a.url.isSome && a.content_hash.isSome) then Except.ok a
  else Except.error
    ("Appended must have either uuid, inline (body + encoding), or external (url + content_hash) content")

def parseAppended (j : AppendedJson) : Except String Appended := do
  let enc ← decodeOptEncoding j.encoding
  validate_appended_content ⟨j.uuid, j.body, enc, j.url, j.content_hash⟩

/-- VCon field validator validate_date_format: ISO strings are parsed into
datetimes, datetimes pass through. -/
def validate_date_format : DtOrStr → Except String DateTime
  | DtOrStr.dt t => Except.ok t
  | DtOrStr.str s =>
      match fromisoformat s with
      | some t => Except.ok t
      | Option.none => Except.error ("Dates must be valid ISO 8601 format")

/-- How many of redacted, appended and non-empty group are present. -/
def exclusiveCount (r : Option Redacted) (a : Option Appended)
    (g : Option (List GroupItem)) : Nat :=
  (if r.isSome then 1 else 0) + (if a.isSome then 1 else 0) +
  (if (g.getD []).length > 0 then 1 else 0)

/-- VCon model_validator(mode=after): validate_mutually_exclusive_fields. -/
def validate_mutually_exclusive_fields (v : VCon) : Except String VCon :=
  if exclusiveCount v.redacted v.appended v.group > 1 then
    Except.error ("Only one of redacted, appended, or group can be provided")
  else Except.ok v

def parseVCon (j : VConJson) : Except String VCon := do
  let vs ← (match j.vcon with
    | Option.none => Except.ok VConVersion.v0_0_2
    | some s =>
        match decodeVConVersion s with
        | some v => Except.ok v
        | Option.none => Except.error ("Input should be a valid VConVersion: " ++ s))
  let uid ← req "uuid" j.uuid
  let cra ← req "created_at" j.created_at
  let cr ← validate_date_format cra
  let up ← (match j.updated_at with
    | Option.none => Except.ok (Option.none : Option DateTime)
    | some d => do
        let t ← validate_date_format d
        Except.ok (some t))
  let red ← (match j.redacted with
    | Option.none => Except.ok (Option.none : Option Redacted)
    | some r => do
        let r2 ← parseRedacted r
        Except.ok (some r2))
  let app ← (match j.appended with
    | Option.none => Except.ok (Option.none : Option Appended)
    | some a => do
        let a2 ← parseAppended a
        Except.ok (some a2))
  let grp ← (match j.group with
    | Option.none => Except.ok (Option.none : Option (List GroupItem))
    | some l => do
        let l2 ← mapME parseGroupItem l
        Except.ok (some l2))
  let pts ← mapME parseParty (j.parties.getD [])
  let dlg ← (match j.dialog with
    | Option.none => Except.ok (some ([] : List Dialog))
    | some Option.none => Except.ok (Option.none : Option (List Dialog))
    | some (some l) => do
        let l2 ← mapME parseDialog l
        Except.ok (some l2))
  let ana ← (match j.analysis with
    | Option.none => Except.ok (some ([] : List Analysis))
    | some Option.none => Except.ok (Option.none : Option (List Analysis))
    | some (some l) => do
        let l2 ← mapME parseAnalysis l
        Except.ok (some l2))
  let att ← (match j.attachments with
    | Option.none => Except.ok (some ([] : List Attachment))
    | some Option.none => Except.ok (Option.none : Option (List Attachment))
    | some (some l) => do
        let l2 ← mapME parseAttachment l
        Except.ok (some l2))
  validate_mutually_exclusive_fields ⟨vs, uid, cr, up, j.subject, red, app,
    grp, pts, dlg, ana, att, j.meta⟩

/-! ### Serialization: model_dump(exclude_none=True) composed with the
json.dumps datetime handler, at the JSON-tree level (to_json then json.loads
of the emitted text yields exactly these trees) -/

/-- The json.dumps default handler turns datetime values into their
isoformat text; strings pass through. -/
def strifyDt : DtOrStr → DtOrStr
  | DtOrStr.dt t => DtOrStr.str (isoformat t)
  | DtOrStr.str s => DtOrStr.str s

def dumpPartyHistory (p : PartyHistory) : PartyHistoryJson :=
  ⟨some p.party, some p.event.toStr, some (strifyDt p.time)⟩

def dumpParty (p : Party) : PartyJson :=
  ⟨p.tel, p.stir, p.mailto, p.name, p.validation, p.gmlpos, p.civicaddress,
    p.uuid, p.role, p.contact_list, p.meta⟩

def dumpDialog (d : Dialog) : DialogJson :=
  ⟨some d.type.toStr, some (strifyDt d.start), d.duration, some d.parties,
    d.originator, d.mediatype, d.filename, d.body, d.encoding.map Encoding.toStr,
    d.url, d.content_hash, d.disposition.map Disposition.toStr,
    d.party_history.map (List.map dumpPartyHistory),
    d.transferee.map some, d.transferor.map some, d.transfer_target.map some,
    d.original.map some, d.consultation.map some, d.target_dialog.map some,
    d.campaign, d.interaction_type, d.interaction_id, d.skill, d.application,
    d.message_id, d.meta⟩

def dumpAnalysis (a : Analysis) : AnalysisJson :=
  ⟨some a.type, a.dialog, a.mediatype, a.filename, some a.vendor, a.product,
    a.schema, a.body, some a.encoding.toStr, a.url, a.content_hash⟩

def dumpAttachment (a : Attachment) : AttachmentJson :=
  ⟨some a.type, a.start.map (fun t => DtOrStr.str (isoformat t)), a.party,
    a.mediatype, a.filename, a.dialog, a.body, a.encoding.map Encoding.toStr,
    a.url, a.content_hash⟩

def dumpGroupItem (g : GroupItem) : GroupItemJson :=
  ⟨g.uuid, g.body, g.encoding.map (fun _ => "json"), g.url, g.content_hash⟩

def dumpRedacted (r : Redacted) : RedactedJson :=
  ⟨some r.uuid, r.type, r.body, r.encoding.map Encoding.toStr, r.url,
    r.content_hash⟩

def dumpAppended (a : Appended) : AppendedJson :=
  ⟨a.uuid, a.body, a.encoding.map Encoding.toStr, a.url, a.content_hash⟩

/-- VCon.to_json, at the JSON-tree level: model_dump(exclude_none=True) with
the datetime handler applied. An absent optional field produces no key;
list-valued fields that hold an empty list are kept (an empty list is not
None). -/
def to_json (v : VCon) : VConJson :=
  ⟨some v.vcon.toStr, some v.uuid, some (DtOrStr.str (isoformat v.created_at)),
    v.updated_at.map (fun t => DtOrStr.str (isoformat t)), v.subject,
    v.redacted.map dumpRedacted, v.appended.map dumpAppended,
    v.group.map (List.map dumpGroupItem), some (v.parties.map dumpParty),
    v.dialog.map (fun l => some (l.map dumpDialog)),
    v.analysis.map (fun l => some (l.map dumpAnalysis)),
    v.attachments.map (fun l => some (l.map dumpAttachment)), v.meta⟩

/-- VCon.build_from_json, at the JSON-tree level: json.loads of the text
followed by re-running every constructor on the decoded field set. -/
def build_from_json (j : VConJson) : Except String VCon := parseVCon j

/-- VCon.build_new: uuid4 and datetime.now are the only environment inputs,
passed here as the 128 bit random value r and the current time t. -/
def build_new (r : Nat) (t : DateTime) : Except String VCon :=
  parseVCon ⟨some "0.0.2", some (strUuid4 r), some (DtOrStr.str (isoformat t)),
    Option.none, Option.none, Option.none, Option.none, Option.none,
    some [], some (some []), some (some []), some (some []), Option.none⟩

/-! ### Invariants that every constructed entity satisfies (the image of the
constructors), and the normalization the serialization round trip applies -/

def isStructured : Option JsonValue → Bool
  | some (JsonValue.obj _) => true
  | some (JsonValue.arr _) => true
  | _ => false

def isTopNull : Option JsonValue → Bool
  | some JsonValue.null => true
  | _ => false

def Dialog.validD (d : Dialog) : Bool :=
  (match d.type with
   | DialogType.incomplete =>
       d.disposition.isSome && d.body.isNone && d.url.isNone
   | DialogType.transfer => d.disposition.isNone
   | _ =>
       d.disposition.isNone &&
       ((d.body.isSome && d.encoding.isSome)
         || (d.url.isSome && d.content_hash.isSome))) &&
  (d.type = DialogType.transfer ||
    (d.transferee.isNone && d.transferor.isNone && d.transfer_target.isNone &&
     d.original.isNone && d.consultation.isNone && d.target_dialog.isNone))

def Analysis.validA (a : Analysis) : Bool :=
  !(isTopNull a.body) &&
  (a.body.isSome || (a.url.isSome && a.content_hash.isSome)) &&
  (!(a.encoding = Encoding.json && a.body.isSome) || isStructured a.body)

def Attachment.validAt (a : Attachment) : Bool :=
  ((a.body.isSome && a.encoding.isSome) || (a.url.isSome && a.content_hash.isSome)) &&
  (match a.start with
   | some t => t.validB
   | Option.none => true)

def GroupItem.validG (g : GroupItem) : Bool :=
  g.uuid.isSome || (g.body.isSome && g.encoding.isSome)
    || (g.url.isSome && g.content_hash.isSome)

def Appended.validAp (a : Appended) : Bool :=
  a.uuid.isSome || (a.body.isSome && a.encoding.isSome)
    || (a.url.isSome && a.content_hash.isSome)

/-- A validly-constructed container: every invariant the constructors
enforce, plus datetime fields lying in the calendar ranges the Python
datetime type guarantees. -/
def VCon.validV (v : VCon) : Bool :=
  v.created_at.validB &&
  (match v.updated_at with
   | some t => t.validB
   | Option.none => true) &&
  (exclusiveCount v.redacted v.appended v.group ≤ 1) &&
  (v.group.getD []).all GroupItem.validG &&
  (match v.appended with
   | some a => a.validAp
   | Option.none => true) &&
  (v.dialog.getD []).all Dialog.validD &&
  (v.analysis.getD []).all Analysis.validA &&
  (v.attachments.getD []).all Attachment.validAt

def normPartyHistory (p : PartyHistory) : PartyHistory :=
  { p with time := strifyDt p.time }

def normDialog (d : Dialog) : Dialog :=
  { d with start := strifyDt d.start,
           party_history := d.party_history.map (List.map normPartyHistory) }

/-- What one encode/decode round trip does to a validly-constructed
container: the three default_factory sequences dialog, analysis and
attachments come back as empty lists when they were absent, and datetime
values in the unvalidated Union[datetime, str] positions (Dialog.start,
PartyHistory.time) come back as their ISO text. All other fields are
preserved exactly. -/
def normVCon (v : VCon) : VCon :=
  { v with dialog := some ((v.dialog.getD []).map normDialog),
           analysis := some (v.analysis.getD []),
           attachments := some (v.attachments.getD []) }

/-! ### The whole-document validation pass is_valid -/

/-- The guard of the mimetype inspection inside is_valid, literally:
hasattr(dialog, "mimetype"), outer truthiness of dialog.mimetype, the type
test, and the inner falsiness of dialog.mimetype. The Dialog entity defines
no mimetype field, so hasAttr is False at the call site (and the guard
needs truthy and its negation at once regardless). -/
def mimetypeCheck (hasAttr truthy typeOk : Bool) : Bool :=
  hasAttr && truthy && (typeOk && !truthy)

def partyRefErrors (party_count : Nat) (i : Nat) (d : Dialog) : List String :=
  match d.parties with
  | PartiesVal.scalar idx =>
      if idx < 0 ∨ idx ≥ (party_count : Int) then
        ["Dialog at index " ++ toString i ++ " references invalid party index: "
          ++ toString idx]
      else []
  | PartiesVal.plist items =>
      items.foldr (fun it acc =>
        (match it with
         | PartyRefItem.idx idx =>
             if idx < 0 ∨ idx ≥ (party_count : Int) then
               ["Dialog at index " ++ toString i ++ " references invalid party index: "
                 ++ toString idx]
             else []
         | PartyRefItem.sub _ => []) ++ acc) []

/-- The body of the per-dialog loop of is_valid: the party reference check
followed by the mimetype inspection (whose guard never holds). As the Dialog
entity has no mimetype attribute, hasattr is False; False also stands in
for the unevaluatable truthiness of the missing attribute. -/
def dialogLoopErrors (party_count : Nat) (i : Nat) (d : Dialog) : List String :=
  partyRefErrors party_count i d ++
  (if mimetypeCheck false false
      (decide (d.type ≠ DialogType.incomplete ∧ d.type ≠ DialogType.transfer)) then
    ["Dialog " ++ toString i ++ " missing required mimetype"]
  else [])

def analysisRefErrors (dialog_count : Nat) (i : Nat) (a : Analysis) : List String :=
  match a.dialog with
  | Option.none => []
  | some (DialogRef.one idx) =>
      if idx < 0 ∨ idx ≥ (dialog_count : Int) then
        ["Analysis at index " ++ toString i ++ " references invalid dialog index: "
          ++ toString idx]
      else []
  | some (DialogRef.many l) =>
      l.foldr (fun idx acc =>
        (if idx < 0 ∨ idx ≥ (dialog_count : Int) then
          ["Analysis at index " ++ toString i ++ " references invalid dialog index: "
            ++ toString idx]
        else []) ++ acc) []

/-- VCon.is_valid. The leading required-field, created_at-type and
parties-type checks of the source cannot fire on a constructed container
(uuid, vcon and created_at are non-None by construction, created_at is a
datetime and parties is a list), so they contribute no errors here; the two
reference loops follow in source order. -/
def is_valid (v : VCon) : Bool × List String :=
  let party_count := v.parties.length
  let dialog_count := (v.dialog.getD []).length
  let errs1 := ((v.dialog.getD []).enum).foldr
    (fun p acc => dialogLoopErrors party_count p.1 p.2 ++ acc) []
  let errs2 := ((v.analysis.getD []).enum).foldr
    (fun p acc => analysisRefErrors dialog_count p.1 p.2 ++ acc) []
  let errors := errs1 ++ errs2
  (errors.isEmpty, errors)

/-! ### Mutation and lookup helpers -/

def add_party (v : VCon) (p : Party) : VCon :=
  { v with parties := v.parties ++ [p] }

def add_dialog (v : VCon) (d : Dialog) : VCon :=
  { v with dialog := some (v.dialog.getD [] ++ [d]) }

def add_analysis (v : VCon) (a : Analysis) : VCon :=
  { v with analysis := some (v.analysis.getD [] ++ [a]) }

def add_attachment (v : VCon) (a : Attachment) : VCon :=
  { v with attachments := some (v.attachments.getD [] ++ [a]) }

def find_attachment_by_type (v : VCon) (type : String) : Option Attachment :=
  (v.attachments.getD []).find? (fun a => a.type == type)

def find_analysis_by_type (v : VCon) (type : String) : Option Analysis :=
  (v.analysis.getD []).find? (fun a => a.type == type)

/-- Python dict assignment d[k] = val: replace the value at an existing key
in place, otherwise append the pair (insertion order preserved). -/
def dictSet (m : JsonObj) (k : String) (val : JsonValue) : JsonObj :=
  if m.any (fun p => p.1 == k) then
    m.map (fun p => if p.1 == k then (p.1, val) else p)
  else m ++ [(k, val)]

/-- Python dict.get. -/
def dictGet (m : JsonObj) (k : String) : Option JsonValue :=
  (m.find? (fun p => p.1 == k)).map Prod.snd

/-- The in-place mutation add_tag performs on the found tags attachment:
set body[tag_name] = tag_value if body is a dict, otherwise replace body by
a fresh singleton dict. -/
def setTagOnAttachment (a : Attachment) (tag_name tag_value : String) : Attachment :=
  match a.body with
  | some (AttachBody.obj m) =>
      { a with body := some (AttachBody.obj (dictSet m tag_name (JsonValue.str tag_value))) }
  | _ => { a with body := some (AttachBody.obj [(tag_name, JsonValue.str tag_value)]) }

/-- Apply the tag mutation to the first attachment of type tags (the object
find_attachment_by_type aliases). -/
def setFirstTags : List Attachment → String → String → List Attachment
  | [], _, _ => []
  | a :: rest, k, val =>
      if a.type == "tags" then setTagOnAttachment a k val :: rest
      else a :: setFirstTags rest k val

/-- The fresh tags attachment add_tag creates on first use: type tags, an
empty dict body, json encoding (it satisfies the Attachment content
invariant: body and encoding are present). -/
def newTagsAttachment : Attachment :=
  ⟨"tags", Option.none, Option.none, Option.none, Option.none, Option.none,
    some (AttachBody.obj []), some Encoding.json, Option.none, Option.none⟩

/-- VCon.add_tag; datetime.now is the parameter now. When no tags attachment
exists one is created with an empty dict body and appended, then the tag is
written into the (aliased) appended attachment; otherwise the first tags
attachment is mutated in place. updated_at is set as a side effect. -/
def add_tag (now : DateTime) (v : VCon) (tag_name tag_value : String) : VCon :=
  match find_attachment_by_type v "tags" with
  | Option.none =>
      let created := setTagOnAttachment newTagsAttachment tag_name tag_value
      { v with attachments := some (v.attachments.getD [] ++ [created]),
               updated_at := some now }
  | some _ =>
      { v with attachments := some (setFirstTags (v.attachments.getD []) tag_name tag_value),
               updated_at := some now }

/-- VCon.get_tag: the looked-up dict value (declared Optional[str] in the
source; the raw value is returned as stored). -/
def get_tag (v : VCon) (tag_name : String) : Option JsonValue :=
  match find_attachment_by_type v "tags" with
  | Option.none => Option.none
  | some a =>
      match a.body with
      | some (AttachBody.obj m) => dictGet m tag_name
      | _ => Option.none

/-! ### Round-trip lemmas for the serialization layer -/

theorem ok_bind {a b : Type} (x : a) (f : a → Except String b) :
    (Except.ok x >>= f : Except String b) = f x := rfl

theorem decodeVConVersion_toStr (v : VConVersion) :
    decodeVConVersion v.toStr = some v := by
  cases v
  rfl

theorem decodeEncoding_toStr (e : Encoding) : decodeEncoding e.toStr = some e := by
  cases e <;> rfl

theorem decodeDialogType_toStr (d : DialogType) :
    decodeDialogType d.toStr = some d := by
  cases d <;> rfl

theorem decodeDisposition_toStr (d : Disposition) :
    decodeDisposition d.toStr = some d := by
  cases d <;> rfl

theorem decodePHEvent_toStr (e : PHEvent) : decodePHEvent e.toStr = some e := by
  cases e <;> rfl

theorem dispTruthy_toStr (d : Disposition) : dispTruthy (some d.toStr) = true := by
  cases d <;> decide

theorem decodeOptEncoding_dump (e : Option Encoding) :
    decodeOptEncoding (e.map Encoding.toStr) = Except.ok e := by
  cases e with
  | none => rfl
  | some x => simp [decodeOptEncoding, decodeEncoding_toStr x]

theorem decodeOptEncoding_some_toStr (e : Encoding) :
    decodeOptEncoding (some e.toStr) = Except.ok (some e) := by
  simp [decodeOptEncoding, decodeEncoding_toStr]

theorem decodeOptEncoding_none :
    decodeOptEncoding Option.none = Except.ok Option.none := rfl

theorem parsePartyHistory_dump (p : PartyHistory) :
    parsePartyHistory (dumpPartyHistory p) = Except.ok (normPartyHistory p) := by
  rcases p with ⟨pa, ev, tm⟩
  cases ev <;> cases tm <;> rfl

theorem mapM_parsePartyHistory (l : List PartyHistory) :
    mapME parsePartyHistory (l.map dumpPartyHistory)
      = Except.ok (l.map normPartyHistory) := by
  induction l with
  | nil => rfl
  | cons p rest ih =>
      simp [mapME, parsePartyHistory_dump, ih, ok_bind]

theorem parseParty_dump (p : Party) : parseParty (dumpParty p) = Except.ok p := by
  rcases p with ⟨tel, stir, mailto, nm, vali, gml, civ, uu, ro, cl, me⟩
  cases civ <;> rfl

theorem mapM_parseParty (l : List Party) :
    mapME parseParty (l.map dumpParty) = Except.ok l := by
  induction l with
  | nil => rfl
  | cons p rest ih =>
      simp [mapME, parseParty_dump, ih, ok_bind]

theorem validate_transfer_fields_transfer (nm : String) (r5 : Bool)
    (x : Option Int) :
    validate_transfer_fields DialogType.transfer nm r5 (x.map some)
      = Except.ok x := by
  cases x <;> simp [validate_transfer_fields]

set_option maxHeartbeats 1600000 in
theorem parseDialog_dump {d : Dialog} (h : d.validD = true) :
    parseDialog (dumpDialog d) = Except.ok (normDialog d) := by
  rcases d with ⟨ty, st, du, pa, po, mt, fn, bo, enc, url, ch, disp, ph,
    t1, t2, t3, t4, t5, t6, ca, io, ii, sk, ap, mi, me⟩
  simp only [Dialog.validD] at h
  cases ty with
  | incomplete =>
      simp only [Bool.and_eq_true, Bool.or_eq_true, decide_eq_true_eq,
        Option.isSome_iff_exists, Option.isNone_iff_eq_none, and_assoc,
        false_or, true_or, or_true, true_and, and_true, reduceCtorEq] at h
      obtain ⟨⟨dv, hdv⟩, hbo, hurl, e1, e2, e3, e4, e5, e6⟩ := h
      subst hdv hbo hurl e1 e2 e3 e4 e5 e6
      cases ph <;>
        simp [parseDialog, dumpDialog, validate_dialog_fields, DialogType.toStr,
          dispTruthy_toStr, req, ok_bind, decodeDialogType, decodeDisposition_toStr,
          decodeOptEncoding_dump, decodeOptEncoding_some_toStr, decodeOptEncoding_none, mapM_parsePartyHistory,
          validate_transfer_fields, normDialog]
  | transfer =>
      simp only [Bool.and_eq_true, Bool.or_eq_true, decide_eq_true_eq,
        Option.isNone_iff_eq_none, and_assoc, false_or, true_or, or_true,
        true_and, and_true, reduceCtorEq] at h
      subst h
      cases ph <;>
        simp [parseDialog, dumpDialog, validate_dialog_fields, DialogType.toStr,
          req, ok_bind, decodeDialogType, decodeOptEncoding_dump,
          decodeOptEncoding_some_toStr, decodeOptEncoding_none, mapM_parsePartyHistory, validate_transfer_fields_transfer, normDialog]
  | recording =>
      simp only [Bool.and_eq_true, Bool.or_eq_true, decide_eq_true_eq,
        Option.isSome_iff_exists, Option.isNone_iff_eq_none, and_assoc,
        false_or, true_or, or_true, true_and, and_true, reduceCtorEq] at h
      obtain ⟨hdisp, hcontent, e1, e2, e3, e4, e5, e6⟩ := h
      subst hdisp e1 e2 e3 e4 e5 e6
      rcases hcontent with ⟨⟨b2, hb⟩, ⟨e2x, he⟩⟩ | ⟨⟨u2, hu⟩, ⟨c2, hc⟩⟩ <;>
        [subst hb he; subst hu hc] <;>
        cases ph <;>
        simp [parseDialog, dumpDialog, validate_dialog_fields, DialogType.toStr,
          req, ok_bind, decodeDialogType, decodeOptEncoding_dump,
          decodeOptEncoding_some_toStr, decodeOptEncoding_none, mapM_parsePartyHistory, validate_transfer_fields, normDialog]
  | text =>
      simp only [Bool.and_eq_true, Bool.or_eq_true, decide_eq_true_eq,
        Option.isSome_iff_exists, Option.isNone_iff_eq_none, and_assoc,
        false_or, true_or, or_true, true_and, and_true, reduceCtorEq] at h
      obtain ⟨hdisp, hcontent, e1, e2, e3, e4, e5, e6⟩ := h
      subst hdisp e1 e2 e3 e4 e5 e6
      rcases hcontent with ⟨⟨b2, hb⟩, ⟨e2x, he⟩⟩ | ⟨⟨u2, hu⟩, ⟨c2, hc⟩⟩ <;>
        [subst hb he; subst hu hc] <;>
        cases ph <;>
        simp [parseDialog, dumpDialog, validate_dialog_fields, DialogType.toStr,
          req, ok_bind, decodeDialogType, decodeOptEncoding_dump,
          decodeOptEncoding_some_toStr, decodeOptEncoding_none, mapM_parsePartyHistory, validate_transfer_fields, normDialog]

theorem mapME_parseDialog_dump (l : List Dialog) (h : l.all Dialog.validD = true) :
    mapME parseDialog (l.map dumpDialog) = Except.ok (l.map normDialog) := by
  induction l with
  | nil => rfl
  | cons d rest ih =>
      simp only [List.all_cons, Bool.and_eq_true] at h
      simp [mapME, parseDialog_dump h.1, ih h.2, ok_bind]

theorem parseAnalysis_dump {a : Analysis} (h : a.validA = true) :
    parseAnalysis (dumpAnalysis a) = Except.ok a := by
  rcases a with ⟨ty, dlg, mt, fn, vd, pr, sc, bo, enc, url, ch⟩
  simp only [Analysis.validA, Bool.and_eq_true, Bool.not_eq_true', and_assoc] at h
  obtain ⟨hnull, hcontent, hjson⟩ := h
  cases enc <;> rcases bo with _ | jv <;> (try cases jv) <;>
    simp_all [parseAnalysis, dumpAnalysis, validate_analysis_content, req, ok_bind,
      Encoding.toStr, decodeEncoding, isTopNull, isStructured]

theorem mapME_parseAnalysis_dump (l : List Analysis)
    (h : l.all Analysis.validA = true) :
    mapME parseAnalysis (l.map dumpAnalysis) = Except.ok l := by
  induction l with
  | nil => rfl
  | cons a rest ih =>
      simp only [List.all_cons, Bool.and_eq_true] at h
      simp [mapME, parseAnalysis_dump h.1, ih h.2, ok_bind]

theorem parseAttachment_dump {a : Attachment} (h : a.validAt = true) :
    parseAttachment (dumpAttachment a) = Except.ok a := by
  rcases a with ⟨ty, st, pt, mt, fn, dlg, bo, enc, url, ch⟩
  simp only [Attachment.validAt, Bool.and_eq_true] at h
  obtain ⟨hcontent, hst⟩ := h
  cases st with
  | none =>
      cases enc <;>
        simp_all [parseAttachment, dumpAttachment, validate_attachment_content,
          req, ok_bind, decodeOptEncoding_dump, decodeOptEncoding_some_toStr, decodeOptEncoding_none]
  | some t =>
      cases enc <;>
        simp_all [parseAttachment, dumpAttachment, validate_attachment_content,
          req, ok_bind, decodeOptEncoding_dump, decodeOptEncoding_some_toStr, decodeOptEncoding_none,
          parseIso_isoformat hst]

theorem mapME_parseAttachment_dump (l : List Attachment)
    (h : l.all Attachment.validAt = true) :
    mapME parseAttachment (l.map dumpAttachment) = Except.ok l := by
  induction l with
  | nil => rfl
  | cons a rest ih =>
      simp only [List.all_cons, Bool.and_eq_true] at h
      simp [mapME, parseAttachment_dump h.1, ih h.2, ok_bind]

theorem parseGroupItem_dump {g : GroupItem} (h : g.validG = true) :
    parseGroupItem (dumpGroupItem g) = Except.ok g := by
  rcases g with ⟨uu, bo, enc, url, ch⟩
  cases enc with
  | none => simp_all [parseGroupItem, dumpGroupItem, validate_group_item_content,
      ok_bind, GroupItem.validG]
  | some j =>
      cases j
      simp_all [parseGroupItem, dumpGroupItem, validate_group_item_content,
        ok_bind, GroupItem.validG]

theorem mapME_parseGroupItem_dump (l : List GroupItem)
    (h : l.all GroupItem.validG = true) :
    mapME parseGroupItem (l.map dumpGroupItem) = Except.ok l := by
  induction l with
  | nil => rfl
  | cons g rest ih =>
      simp only [List.all_cons, Bool.and_eq_true] at h
      simp [mapME, parseGroupItem_dump h.1, ih h.2, ok_bind]

theorem parseRedacted_dump (r : Redacted) :
    parseRedacted (dumpRedacted r) = Except.ok r := by
  rcases r with ⟨uu, tp, bo, enc, url, ch⟩
  cases enc <;>
    simp [parseRedacted, dumpRedacted, req, ok_bind, decodeOptEncoding_dump,
      decodeOptEncoding_some_toStr, decodeOptEncoding_none]

theorem parseAppended_dump {a : Appended} (h : a.validAp = true) :
    parseAppended (dumpAppended a) = Except.ok a := by
  rcases a with ⟨uu, bo, enc, url, ch⟩
  cases enc <;>
    simp_all [parseAppended, dumpAppended, validate_appended_content, ok_bind,
      decodeOptEncoding_dump, decodeOptEncoding_some_toStr, decodeOptEncoding_none, Appended.validAp]

theorem validate_date_format_iso {t : DateTime} (h : t.validB = true) :
    validate_date_format (DtOrStr.str (isoformat t)) = Except.ok t := by
  simp [validate_date_format, parseIso_isoformat h]

set_option maxHeartbeats 1600000 in
theorem parseVCon_to_json {v : VCon} (h : v.validV = true) :
    parseVCon (to_json v) = Except.ok (normVCon v) := by
  rcases v with ⟨vs, uid, cr, up, sj, red, app, grp, pts, dlg, ana, att, me⟩
  simp only [VCon.validV, Bool.and_eq_true] at h
  obtain ⟨⟨⟨⟨⟨⟨⟨hcr, hup⟩, hexcl⟩, hgrp⟩, happ⟩, hdlg⟩, hana⟩, hatt⟩ := h
  have hexcl2 : exclusiveCount red app grp ≤ 1 := by
    simpa [decide_eq_true_eq] using hexcl
  cases vs
  cases up with
  | none =>
      cases red <;> cases app <;> cases grp <;> cases dlg <;> cases ana <;> cases att <;>
        simp_all [parseVCon, to_json, req, ok_bind, decodeVConVersion,
          VConVersion.toStr, validate_date_format_iso hcr, parseRedacted_dump,
          parseAppended_dump, mapME_parseGroupItem_dump, mapM_parseParty,
          mapME_parseDialog_dump, mapME_parseAnalysis_dump,
          mapME_parseAttachment_dump, validate_mutually_exclusive_fields,
          normVCon]
  | some ut =>
      have hut : ut.validB = true := by simpa using hup
      cases red <;> cases app <;> cases grp <;> cases dlg <;> cases ana <;> cases att <;>
        simp_all [parseVCon, to_json, req, ok_bind, decodeVConVersion,
          VConVersion.toStr, validate_date_format_iso hcr,
          validate_date_format_iso hut, parseRedacted_dump,
          parseAppended_dump, mapME_parseGroupItem_dump, mapM_parseParty,
          mapME_parseDialog_dump, mapME_parseAnalysis_dump,
          mapME_parseAttachment_dump, validate_mutually_exclusive_fields,
          normVCon]

/-! ### Characterization of the reference-validation pass -/

/-- The party indices one dialog references, in order: a scalar is one
reference, list items contribute their integer entries; nested sub-lists are
not checked by the source pass. -/
def dialogPartyRefs (d : Dialog) : List Int :=
  match d.parties with
  | PartiesVal.scalar i => [i]
  | PartiesVal.plist items =>
      items.foldr (fun it acc =>
        (match it with
         | PartyRefItem.idx i => [i]
         | PartyRefItem.sub _ => []) ++ acc) []

/-- The dialog indices one analysis references. -/
def analysisDialogRefs (a : Analysis) : List Int :=
  match a.dialog with
  | Option.none => []
  | some (DialogRef.one i) => [i]
  | some (DialogRef.many l) => l

/-- An index outside the half-open range from 0 to count. -/
def outOfRange (count : Nat) (i : Int) : Bool := i < 0 || (count : Int) ≤ i

def partyMsg (i : Nat) (idx : Int) : String :=
  "Dialog at index " ++ toString i ++ " references invalid party index: " ++ toString idx

def dialogMsg (i : Nat) (idx : Int) : String :=
  "Analysis at index " ++ toString i ++ " references invalid dialog index: " ++ toString idx

/-- The expected output of the reference pass, stated independently of the
loop structure: one message for each out-of-range reference, in document
order, naming the entity position and the offending index; nothing else. -/
def specErrors (v : VCon) : List String :=
  ((v.dialog.getD []).enum.map (fun p =>
      ((dialogPartyRefs p.2).filter (outOfRange v.parties.length)).map (partyMsg p.1))).flatten
  ++ ((v.analysis.getD []).enum.map (fun p =>
      ((analysisDialogRefs p.2).filter (outOfRange (v.dialog.getD []).length)).map (dialogMsg p.1))).flatten

theorem mimetypeCheck_false (a b c : Bool) : mimetypeCheck a b c = false := by
  cases a <;> cases b <;> cases c <;> rfl

theorem dialogLoopErrors_eq (pc i : Nat) (d : Dialog) :
    dialogLoopErrors pc i d = partyRefErrors pc i d := by
  simp [dialogLoopErrors, mimetypeCheck_false]

theorem partyRefErrors_eq (pc i : Nat) (d : Dialog) :
    partyRefErrors pc i d
      = ((dialogPartyRefs d).filter (outOfRange pc)).map (partyMsg i) := by
  rcases d with ⟨ty, st, du, pa, _, _, _, _, _, _, _, _, _, _, _, _, _, _, _, _, _, _, _, _, _, _⟩
  cases pa with
  | scalar idx =>
      by_cases hlt : idx < 0 ∨ idx ≥ (pc : Int) <;>
        simp_all [partyRefErrors, dialogPartyRefs, outOfRange, partyMsg,
          decide_eq_true_eq, not_or]
  | plist items =>
      simp only [partyRefErrors, dialogPartyRefs]
      induction items with
      | nil => rfl
      | cons it rest ih =>
          cases it with
          | idx i2 =>
              by_cases hlt : i2 < 0 ∨ i2 ≥ (pc : Int) <;>
                simp_all [outOfRange, partyMsg, decide_eq_true_eq, not_or]
          | sub l2 => simpa using ih

theorem analysisRefErrors_eq (dc i : Nat) (a : Analysis) :
    analysisRefErrors dc i a
      = ((analysisDialogRefs a).filter (outOfRange dc)).map (dialogMsg i) := by
  rcases a with ⟨ty, dlg, _, _, _, _, _, _, _, _, _⟩
  cases dlg with
  | none => rfl
  | some r =>
      cases r with
      | one idx =>
          by_cases hlt : idx < 0 ∨ idx ≥ (dc : Int) <;>
            simp_all [analysisRefErrors, analysisDialogRefs, outOfRange,
              dialogMsg, decide_eq_true_eq, not_or]
      | many l =>
          simp only [analysisRefErrors, analysisDialogRefs]
          induction l with
          | nil => rfl
          | cons i2 rest ih =>
              by_cases hlt : i2 < 0 ∨ i2 ≥ (dc : Int) <;>
                simp_all [outOfRange, dialogMsg, decide_eq_true_eq, not_or]

theorem map_ext {α β : Type} (f g : α → β) (l : List α) (h : ∀ a, f a = g a) :
    l.map f = l.map g := by
  rw [funext h]

theorem foldr_append_eq_flatten {α β : Type} (f : Nat × α → List β)
    (l : List (Nat × α)) :
    l.foldr (fun p acc => f p ++ acc) [] = (l.map f).flatten := by
  induction l with
  | nil => rfl
  | cons p rest ih => simp [ih]

/-- The error list of is_valid is exactly the per-reference message list. -/
theorem is_valid_eq_specErrors (v : VCon) : (is_valid v).2 = specErrors v := by
  unfold is_valid specErrors
  dsimp only
  rw [foldr_append_eq_flatten, foldr_append_eq_flatten]
  congr 1
  · apply congrArg List.flatten
    apply map_ext
    intro p
    rw [dialogLoopErrors_eq, partyRefErrors_eq]
  · apply congrArg List.flatten
    apply map_ext
    intro p
    rw [analysisRefErrors_eq]

/-! ### Helpers for reasoning about construction outcomes -/

def isError {α : Type} : Except String α → Bool
  | Except.error _ => true
  | Except.ok _ => false

theorem isError_bind {α β : Type} (x : Except String α) (f : α → Except String β)
    (h : ∀ a, x = Except.ok a → isError (f a) = true) : isError (x >>= f) = true := by
  cases x with
  | error e => rfl
  | ok a => exact h a rfl

theorem isError_bind_left {α β : Type} {x : Except String α}
    (f : α → Except String β) (h : isError x = true) :
    isError (x >>= f) = true := by
  cases x with
  | error e => rfl
  | ok a => cases h

theorem ok_of_bind {α β : Type} {x : Except String α} {f : α → Except String β}
    {b : β} (h : (x >>= f) = Except.ok b) :
    ∃ a, x = Except.ok a ∧ f a = Except.ok b := by
  cases x with
  | error e => cases h
  | ok a => exact ⟨a, rfl, h⟩

theorem mapME_length {α β : Type} (f : α → Except String β) (l : List α)
    (l2 : List β) (h : mapME f l = Except.ok l2) : l2.length = l.length := by
  induction l generalizing l2 with
  | nil =>
      cases h
      rfl
  | cons x rest ih =>
      unfold mapME at h
      rcases ok_of_bind h with ⟨y, hy, h⟩
      rcases ok_of_bind h with ⟨ys, hys, h⟩
      cases h
      simp [ih ys hys]

/-! ### Dict and tag-helper lemmas -/

theorem dictGet_cons_pos {p : String × JsonValue} {k : String} (m : JsonObj)
    (h : (p.1 == k) = true) : dictGet (p :: m) k = some p.2 := by
  simp [dictGet, List.find?, h]

theorem dictGet_cons_neg {p : String × JsonValue} {k : String} (m : JsonObj)
    (h : (p.1 == k) = false) : dictGet (p :: m) k = dictGet m k := by
  simp [dictGet, List.find?, h]

theorem dictGet_map_set (m : JsonObj) (k : String) (v : JsonValue)
    (h : m.any (fun p => p.1 == k) = true) :
    dictGet (m.map (fun p => if p.1 == k then (p.1, v) else p)) k = some v := by
  induction m with
  | nil => cases h
  | cons p rest ih =>
      by_cases hk : (p.1 == k) = true
      · simp only [List.map_cons, if_pos hk]
        exact dictGet_cons_pos _ hk
      · simp only [List.any_cons, Bool.or_eq_true] at h
        rcases h with h | h
        · exact absurd h hk
        · simp only [List.map_cons, if_neg hk]
          rw [dictGet_cons_neg _ (by simpa using hk)]
          exact ih h

theorem dictGet_append_new (m : JsonObj) (k : String) (v : JsonValue)
    (h : m.any (fun p => p.1 == k) = false) :
    dictGet (m ++ [(k, v)]) k = some v := by
  induction m with
  | nil => simp [dictGet, List.find?]
  | cons p rest ih =>
      simp only [List.any_cons, Bool.or_eq_false_iff] at h
      simp only [List.cons_append]
      rw [dictGet_cons_neg _ h.1]
      exact ih h.2

theorem dictGet_dictSet (m : JsonObj) (k : String) (v : JsonValue) :
    dictGet (dictSet m k v) k = some v := by
  unfold dictSet
  by_cases h : m.any (fun p => p.1 == k) = true
  · rw [if_pos h]
    exact dictGet_map_set m k v h
  · rw [if_neg h]
    exact dictGet_append_new m k v (by rwa [Bool.not_eq_true] at h)

theorem setTagOnAttachment_type (a : Attachment) (k val : String) :
    (setTagOnAttachment a k val).type = a.type := by
  unfold setTagOnAttachment
  rcases a with ⟨ty, st, pt, mt, fn, dg, bo, enc, url, ch⟩
  cases bo with
  | none => rfl
  | some b => cases b <;> rfl

theorem get_tag_of_setTag (a : Attachment) (k val : String) :
    (match (setTagOnAttachment a k val).body with
     | some (AttachBody.obj m) => dictGet m k
     | _ => Option.none) = some (JsonValue.str val) := by
  unfold setTagOnAttachment
  rcases a with ⟨ty, st, pt, mt, fn, dg, bo, enc, url, ch⟩
  cases bo with
  | none => simp [dictGet, List.find?, dictSet]
  | some b =>
      cases b with
      | obj m => simpa using dictGet_dictSet m k (JsonValue.str val)
      | str s2 => simp [dictGet, List.find?, dictSet]
      | arr l2 => simp [dictGet, List.find?, dictSet]

theorem find?_setFirstTags (l : List Attachment) (k val : String) (a : Attachment)
    (h : l.find? (fun x => x.type == "tags") = some a) :
    (setFirstTags l k val).find? (fun x => x.type == "tags")
      = some (setTagOnAttachment a k val) := by
  induction l with
  | nil => cases h
  | cons x rest ih =>
      by_cases hx : (x.type == "tags") = true
      · simp only [List.find?_cons, hx, cond_true] at h
        cases h
        unfold setFirstTags
        rw [if_pos hx]
        have ht : ((setTagOnAttachment a k val).type == "tags") = true := by
          rw [setTagOnAttachment_type]
          exact hx
        simp [List.find?_cons, ht]
      · have hx2 : (x.type == "tags") = false := by rwa [Bool.not_eq_true] at hx
        simp only [List.find?_cons, hx2, cond_false] at h
        unfold setFirstTags
        rw [if_neg hx]
        simp only [List.find?_cons, hx2, cond_false]
        exact ih h

theorem setFirstTags_length (l : List Attachment) (k val : String) :
    (setFirstTags l k val).length = l.length := by
  induction l with
  | nil => rfl
  | cons x rest ih =>
      unfold setFirstTags
      by_cases hx : (x.type == "tags") = true
      · rw [if_pos hx]
        rfl
      · rw [if_neg hx]
        simpa using ih

/-! ### Concrete sample values used in the claim theorems -/

def sampleDt : DateTime := ⟨2024, 1, 2, 3, 4, 5, 0⟩

/-- The raw field set of VCon(vcon=..., uuid=..., created_at=..., dialog=None,
analysis=[], attachments=[]): an explicit null dialog, empty analysis and
attachment lists, parties omitted. -/
def vconAbsentRaw : VConJson :=
  ⟨some ("0.0.2"), some ("a1"), some (DtOrStr.dt sampleDt), Option.none,
   Option.none, Option.none, Option.none, Option.none, Option.none,
   some Option.none, some (some []), some (some []), Option.none⟩

/-- The container the raw field set above constructs: its dialog sequence is
absent (None) while analysis and attachments are present and empty. -/
def vconAbsent : VCon :=
  ⟨VConVersion.v0_0_2, "a1", sampleDt, Option.none, Option.none, Option.none,
   Option.none, Option.none, [], Option.none, some [], some [], Option.none⟩

def partyBlank : Party :=
  ⟨Option.none, Option.none, Option.none, Option.none, Option.none, Option.none,
   Option.none, Option.none, Option.none, Option.none, Option.none⟩

/-- A text dialog with inline content whose parties reference is the scalar
index 999. -/
def dialog999 : Dialog :=
  ⟨DialogType.text, DtOrStr.str ("2024-01-01T00:00:00"), Option.none,
   PartiesVal.scalar 999, Option.none, Option.none, Option.none,
   some ("hello"), some Encoding.json, Option.none, Option.none, Option.none,
   Option.none, Option.none, Option.none, Option.none, Option.none, Option.none,
   Option.none, Option.none, Option.none, Option.none, Option.none, Option.none,
   Option.none, Option.none⟩

/-- A container with one party (index 0) and the dialog above. -/
def vcon999 : VCon :=
  ⟨VConVersion.v0_0_2, "u2", sampleDt, Option.none, Option.none, Option.none,
   Option.none, Option.none, [partyBlank], some [dialog999], some [], some [],
   Option.none⟩

/-! ### C1 -/

/-- C1 (corrected): the round-trip law fails as stated. The container
vconAbsent is validly constructed (from vconAbsentRaw, i.e.
VCon(..., dialog=None)) with an absent dialog sequence, but decoding its
encoded form yields a container whose dialog sequence is the empty list:
the empty-vs-absent distinction of the three default_factory sequences is
not preserved. -/
theorem c1_roundtrip_counterexample :
    parseVCon vconAbsentRaw = Except.ok vconAbsent
    ∧ vconAbsent.validV = true
    ∧ build_from_json (to_json vconAbsent) ≠ Except.ok vconAbsent := by
  refine ⟨rfl, by decide, ?_⟩
  intro hcontra
  have heval : build_from_json (to_json vconAbsent)
      = Except.ok (normVCon vconAbsent) := parseVCon_to_json (by decide)
  rw [heval] at hcontra
  injection hcontra with h1
  have h2 := congrArg VCon.dialog h1
  have h3 : (some ([] : List Dialog)) = (Option.none : Option (List Dialog)) := h2
  exact Option.noConfusion h3

/-- C1 (amended): for every validly-constructed container,
decode(encode(x)) succeeds and equals x up to the normalization the code
actually performs: absent dialog, analysis and attachments sequences come
back as empty lists, and datetime values in the unvalidated
Union[datetime, str] positions (Dialog.start, PartyHistory.time) come back
as their ISO text; every other field, including the empty-vs-absent
distinction of the group sequence, is preserved exactly. -/
theorem c1_roundtrip_normalized {v : VCon} (h : v.validV = true) :
    build_from_json (to_json v) = Except.ok (normVCon v) :=
  parseVCon_to_json h

theorem c1_roundtrip_normalized_witness :
    vconAbsent.validV = true
    ∧ build_from_json (to_json vconAbsent) = Except.ok (normVCon vconAbsent) :=
  ⟨by decide, c1_roundtrip_normalized (by decide)⟩

/-! ### C2 -/

/-- C2 (confirmed): the is_valid error list is exactly one message per
out-of-range dialog party reference (scalar or list form) and per
out-of-range analysis dialog reference, in document order, each naming the
entity position and the offending index, and the boolean is true exactly
when no such reference exists; in particular the one-party container with a
dialog whose parties is 999 fails with exactly the one violation naming
index 999 and dialog position 0. -/
theorem c2_reference_validation :
    (∀ v : VCon, (is_valid v).2 = specErrors v
        ∧ ((is_valid v).1 = true ↔ specErrors v = []))
    ∧ is_valid vcon999
        = (false, ["Dialog at index 0 references invalid party index: 999"]) := by
  constructor
  · intro v
    refine ⟨is_valid_eq_specErrors v, ?_⟩
    have h1 : (is_valid v).1 = (is_valid v).2.isEmpty := rfl
    rw [h1, is_valid_eq_specErrors v]
    exact List.isEmpty_iff
  · rfl

/-! ### C9 -/

/-- is_valid with the dead mimetype inspection dropped, as the spec
recommends implementers treat it. -/
def is_valid_no_mimetype (v : VCon) : Bool × List String :=
  let party_count := v.parties.length
  let dialog_count := (v.dialog.getD []).length
  let errs1 := ((v.dialog.getD []).enum).foldr
    (fun p acc => partyRefErrors party_count p.1 p.2 ++ acc) []
  let errs2 := ((v.analysis.getD []).enum).foldr
    (fun p acc => analysisRefErrors dialog_count p.1 p.2 ++ acc) []
  let errors := errs1 ++ errs2
  (errors.isEmpty, errors)

/-- C9 (confirmed): the mimetype inspection inside is_valid is a no-op. Its
guard demands the mimetype attribute truthy and falsy at once, so it is
false for every valuation (including the actual one, where the Dialog
entity has no such attribute at all), and is_valid coincides with the same
pass with the branch removed: the missing-mimetype message is never
emitted. -/
theorem c9_mimetype_check_dead :
    (∀ hasAttr truthy typeOk : Bool, mimetypeCheck hasAttr truthy typeOk = false)
    ∧ (∀ v : VCon, is_valid v = is_valid_no_mimetype v) := by
  refine ⟨mimetypeCheck_false, ?_⟩
  intro v
  unfold is_valid is_valid_no_mimetype
  simp only [dialogLoopErrors_eq]

/-! ### C3 -/

def emptyDialogJson : DialogJson :=
  ⟨Option.none, Option.none, Option.none, Option.none, Option.none, Option.none,
   Option.none, Option.none, Option.none, Option.none, Option.none, Option.none,
   Option.none, Option.none, Option.none, Option.none, Option.none, Option.none,
   Option.none, Option.none, Option.none, Option.none, Option.none, Option.none,
   Option.none, Option.none⟩

/-- C3 (confirmed): the type-dependent content-mode invariant at Dialog
construction. An incomplete dialog without a disposition always fails with
the structural violation naming disposition; an incomplete dialog carrying
the inline pair or the external pair always fails; a recording or text
dialog with neither the inline pair nor the external pair always fails. -/
theorem c3_dialog_content_modes :
    (∀ j : DialogJson, j.type = some ("incomplete") → j.disposition = Option.none →
        parseDialog j = Except.error ("disposition required for incomplete dialogs"))
    ∧ (∀ j : DialogJson, j.type = some ("incomplete") →
        ((j.body.isSome && j.encoding.isSome)
          || (j.url.isSome && j.content_hash.isSome)) = true →
        isError (parseDialog j) = true)
    ∧ (∀ j : DialogJson, (j.type = some ("recording") ∨ j.type = some ("text")) →
        (j.body.isSome && j.encoding.isSome) = false →
        (j.url.isSome && j.content_hash.isSome) = false →
        isError (parseDialog j) = true) := by
  refine ⟨?_, ?_, ?_⟩
  · intro j hty hdisp
    unfold parseDialog
    have hv : validate_dialog_fields j
        = Except.error ("disposition required for incomplete dialogs") := by
      unfold validate_dialog_fields
      rw [hty, hdisp]
      simp [dispTruthy]
    rw [hv]
    rfl
  · intro j hty hpair
    unfold parseDialog
    apply isError_bind_left
    have hbu : (j.body.isSome || j.url.isSome) = true := by
      cases hb : j.body.isSome <;> cases hu : j.url.isSome <;> simp_all
    unfold validate_dialog_fields
    rw [hty]
    cases hdt : dispTruthy j.disposition <;> simp [hdt, hbu, isError]
  · intro j hty hinline hexternal
    unfold parseDialog
    apply isError_bind_left
    unfold validate_dialog_fields
    rcases hty with hty | hty <;> rw [hty] <;>
      cases hdisp : j.disposition <;> simp [hdisp, hinline, hexternal, isError]

def jIncNoDisp : DialogJson :=
  { emptyDialogJson with
      type := some ("incomplete"),
      start := some (DtOrStr.str ("2024-01-01T00:00:00")),
      parties := some (PartiesVal.scalar 0) }

def jIncWithBody : DialogJson :=
  { jIncNoDisp with
      disposition := some ("no-answer"),
      body := some ("b"),
      encoding := some ("base64url") }

def jTextNoContent : DialogJson :=
  { emptyDialogJson with
      type := some ("text"),
      start := some (DtOrStr.str ("2024-01-01T00:00:00")),
      parties := some (PartiesVal.scalar 0) }

theorem c3_dialog_content_modes_witness :
    (jIncNoDisp.type = some ("incomplete") ∧ jIncNoDisp.disposition = Option.none
      ∧ parseDialog jIncNoDisp
          = Except.error ("disposition required for incomplete dialogs"))
    ∧ (((jIncWithBody.body.isSome && jIncWithBody.encoding.isSome)
          || (jIncWithBody.url.isSome && jIncWithBody.content_hash.isSome)) = true
      ∧ isError (parseDialog jIncWithBody) = true)
    ∧ ((jTextNoContent.body.isSome && jTextNoContent.encoding.isSome) = false
      ∧ isError (parseDialog jTextNoContent) = true) :=
  ⟨⟨rfl, rfl, c3_dialog_content_modes.1 jIncNoDisp rfl rfl⟩,
   ⟨rfl, c3_dialog_content_modes.2.1 jIncWithBody rfl rfl⟩,
   ⟨rfl, c3_dialog_content_modes.2.2 jTextNoContent (Or.inr rfl) rfl rfl⟩⟩

/-! ### C4 -/

/-- Dialog(type=transfer, start=..., parties=[0, 1]) with the five transfer
fields omitted entirely (keys absent). -/
def jTransferOmitted : DialogJson :=
  { emptyDialogJson with
      type := some ("transfer"),
      start := some (DtOrStr.str ("2024-01-01T00:00:00")),
      parties := some (PartiesVal.plist [PartyRefItem.idx 0, PartyRefItem.idx 1]) }

/-- The same construction with transfer_target explicitly null. -/
def jTransferNullTarget : DialogJson :=
  { jTransferOmitted with transfer_target := some Option.none }

def jTransferFull : DialogJson :=
  { jTransferOmitted with
      transferee := some (some 0),
      transferor := some (some 1),
      transfer_target := some (some 2),
      original := some (some 0),
      target_dialog := some (some 0) }

/-- The dialog the omitted-fields construction produces: it succeeds, with
every transfer field None. -/
def dTransferOmitted : Dialog :=
  ⟨DialogType.transfer, DtOrStr.str ("2024-01-01T00:00:00"), Option.none,
   PartiesVal.plist [PartyRefItem.idx 0, PartyRefItem.idx 1], Option.none,
   Option.none, Option.none, Option.none, Option.none, Option.none, Option.none,
   Option.none, Option.none, Option.none, Option.none, Option.none, Option.none,
   Option.none, Option.none, Option.none, Option.none, Option.none, Option.none,
   Option.none, Option.none, Option.none⟩

def dTransferFull : Dialog :=
  ⟨DialogType.transfer, DtOrStr.str ("2024-01-01T00:00:00"), Option.none,
   PartiesVal.plist [PartyRefItem.idx 0, PartyRefItem.idx 1], Option.none,
   Option.none, Option.none, Option.none, Option.none, Option.none, Option.none,
   Option.none, Option.none, some 0, some 1, some 2, some 0, Option.none,
   some 0, Option.none, Option.none, Option.none, Option.none, Option.none,
   Option.none, Option.none⟩

/-- Three parties and the fully-specified transfer dialog. -/
def vconTransfer : VCon :=
  ⟨VConVersion.v0_0_2, "u3", sampleDt, Option.none, Option.none, Option.none,
   Option.none, Option.none, [partyBlank, partyBlank, partyBlank],
   some [dTransferFull], some [], some [], Option.none⟩

/-- C4 (code bug): constructing a transfer dialog with the five transfer
fields omitted SUCCEEDS, because the field validators only run for
explicitly provided values — although the repository's own
test_transfer_dialog expects a ValidationError here. The intended check is
reachable only when the field is explicitly null, and supplying all five
fields succeeds with a clean is_valid pass. -/
theorem c4_transfer_required_fields :
    parseDialog jTransferOmitted = Except.ok dTransferOmitted
    ∧ parseDialog jTransferNullTarget
        = Except.error ("transfer_target required for transfer dialogs")
    ∧ parseDialog jTransferFull = Except.ok dTransferFull
    ∧ is_valid vconTransfer = (true, []) :=
  ⟨rfl, rfl, rfl, rfl⟩

/-! ### C5 -/

/-- C5 (confirmed): the Analysis content invariant. With neither an inline
body nor both url and content_hash, construction always fails; with the
JSON encoding and an inline body that is not a mapping or sequence,
construction always fails, with the exact message when the other required
fields are present. -/
theorem c5_analysis_content :
    (∀ j : AnalysisJson, j.body = Option.none →
        (j.url.isSome && j.content_hash.isSome) = false →
        isError (parseAnalysis j) = true)
    ∧ (∀ (j : AnalysisJson) (ty vd : String) (bv : JsonValue),
        j.type = some ty → j.vendor = some vd → j.encoding = some ("json") →
        j.body = some bv → isStructured (some bv) = false →
        parseAnalysis j = Except.error ("JSON body must be a dict or list")) := by
  constructor
  · intro j hbody hext
    unfold parseAnalysis
    apply isError_bind; intro ty _
    apply isError_bind; intro vd _
    apply isError_bind; intro encs _
    apply isError_bind; intro enc _
    unfold validate_analysis_content
    simp [hbody, hext, isError]
  · intro j ty vd bv hty hvd henc hbody hstruct
    unfold parseAnalysis
    rw [hty, hvd, henc, hbody]
    cases bv <;>
      simp_all [req, ok_bind, decodeEncoding, validate_analysis_content,
        isStructured, isError]

def jAnalysisNoContent : AnalysisJson :=
  ⟨some ("sentiment"), Option.none, Option.none, Option.none, some ("acme"),
   Option.none, Option.none, Option.none, some ("json"), Option.none,
   Option.none⟩

def jAnalysisScalarJson : AnalysisJson :=
  ⟨some ("sentiment"), Option.none, Option.none, Option.none, some ("acme"),
   Option.none, Option.none, some (JsonValue.str ("invalid-json")),
   some ("json"), Option.none, Option.none⟩

theorem c5_analysis_content_witness :
    (jAnalysisNoContent.body = Option.none
      ∧ (jAnalysisNoContent.url.isSome && jAnalysisNoContent.content_hash.isSome) = false
      ∧ isError (parseAnalysis jAnalysisNoContent) = true)
    ∧ (jAnalysisScalarJson.encoding = some ("json")
      ∧ isStructured (some (JsonValue.str ("invalid-json"))) = false
      ∧ parseAnalysis jAnalysisScalarJson
          = Except.error ("JSON body must be a dict or list")) :=
  ⟨⟨rfl, rfl, c5_analysis_content.1 jAnalysisNoContent rfl rfl⟩,
   ⟨rfl, rfl, c5_analysis_content.2 jAnalysisScalarJson ("sentiment") ("acme")
      (JsonValue.str ("invalid-json")) rfl rfl rfl rfl rfl⟩⟩

/-! ### C6 -/

/-- How many of the three alternate-content modes a raw field set carries:
redacted present, appended present, group present and non-empty. -/
def countJson (j : VConJson) : Nat :=
  (if j.redacted.isSome then 1 else 0) + (if j.appended.isSome then 1 else 0) +
  (if (j.group.getD []).length > 0 then 1 else 0)

theorem validate_mutual_ok {w v : VCon}
    (h : validate_mutually_exclusive_fields w = Except.ok v) :
    exclusiveCount v.redacted v.appended v.group ≤ 1 := by
  unfold validate_mutually_exclusive_fields at h
  by_cases hc : exclusiveCount w.redacted w.appended w.group > 1
  · rw [if_pos hc] at h
    cases h
  · rw [if_neg hc] at h
    cases h
    omega

/-- C6 (confirmed): constructing a container in which more than one of a
Redacted reference, an Appended reference and a non-empty GroupItem
sequence is present always fails, and every successfully constructed
container carries at most one of the three (an empty group does not count
as present). -/
theorem c6_mutually_exclusive :
    (∀ j : VConJson, countJson j > 1 → isError (parseVCon j) = true)
    ∧ (∀ (j : VConJson) (v : VCon), parseVCon j = Except.ok v →
        exclusiveCount v.redacted v.appended v.group ≤ 1) := by
  constructor
  · intro j hc
    unfold parseVCon
    apply isError_bind; intro vs _
    apply isError_bind; intro uid _
    apply isError_bind; intro cra _
    apply isError_bind; intro cr _
    apply isError_bind; intro up _
    apply isError_bind; intro red hred
    apply isError_bind; intro app happ
    apply isError_bind; intro grp hgrp
    apply isError_bind; intro pts _
    apply isError_bind; intro dlg _
    apply isError_bind; intro ana _
    apply isError_bind; intro att _
    have hr : red.isSome = j.redacted.isSome := by
      cases hj : j.redacted with
      | none =>
          rw [hj] at hred
          cases hred
          rfl
      | some x =>
          rw [hj] at hred
          rcases ok_of_bind hred with ⟨r2, _, h2⟩
          cases h2
          rfl
    have ha : app.isSome = j.appended.isSome := by
      cases hj : j.appended with
      | none =>
          rw [hj] at happ
          cases happ
          rfl
      | some x =>
          rw [hj] at happ
          rcases ok_of_bind happ with ⟨a2, _, h2⟩
          cases h2
          rfl
    have hg : (grp.getD []).length = (j.group.getD []).length := by
      cases hj : j.group with
      | none =>
          rw [hj] at hgrp
          cases hgrp
          rfl
      | some l =>
          rw [hj] at hgrp
          rcases ok_of_bind hgrp with ⟨l2, hl2, h2⟩
          cases h2
          simpa using mapME_length parseGroupItem l l2 hl2
    have hcount : exclusiveCount red app grp > 1 := by
      unfold exclusiveCount
      unfold countJson at hc
      rw [hr, ha, hg]
      exact hc
    unfold validate_mutually_exclusive_fields
    rw [if_pos hcount]
    rfl
  · intro j v hok
    unfold parseVCon at hok
    rcases ok_of_bind hok with ⟨vs, _, hok⟩
    rcases ok_of_bind hok with ⟨uid, _, hok⟩
    rcases ok_of_bind hok with ⟨cra, _, hok⟩
    rcases ok_of_bind hok with ⟨cr, _, hok⟩
    rcases ok_of_bind hok with ⟨up, _, hok⟩
    rcases ok_of_bind hok with ⟨red, _, hok⟩
    rcases ok_of_bind hok with ⟨app, _, hok⟩
    rcases ok_of_bind hok with ⟨grp, _, hok⟩
    rcases ok_of_bind hok with ⟨pts, _, hok⟩
    rcases ok_of_bind hok with ⟨dlg, _, hok⟩
    rcases ok_of_bind hok with ⟨ana, _, hok⟩
    rcases ok_of_bind hok with ⟨att, _, hok⟩
    exact validate_mutual_ok hok

def jRedactedOnly : VConJson :=
  ⟨some ("0.0.2"), some ("u4"), some (DtOrStr.dt sampleDt), Option.none,
   Option.none,
   some ⟨some ("ru"), Option.none, Option.none, Option.none, Option.none,
     Option.none⟩,
   Option.none, Option.none, Option.none, Option.none, Option.none,
   Option.none, Option.none⟩

def jRedactedAppended : VConJson :=
  { jRedactedOnly with
      appended := some ⟨some ("au"), Option.none, Option.none, Option.none,
        Option.none⟩ }

def vRedactedOnly : VCon :=
  ⟨VConVersion.v0_0_2, "u4", sampleDt, Option.none, Option.none,
   some ⟨"ru", Option.none, Option.none, Option.none, Option.none, Option.none⟩,
   Option.none, Option.none, [], some [], some [], some [], Option.none⟩

theorem c6_mutually_exclusive_witness :
    countJson jRedactedAppended > 1
    ∧ isError (parseVCon jRedactedAppended) = true
    ∧ parseVCon jRedactedOnly = Except.ok vRedactedOnly
    ∧ exclusiveCount vRedactedOnly.redacted vRedactedOnly.appended
        vRedactedOnly.group ≤ 1 :=
  ⟨by decide, c6_mutually_exclusive.1 jRedactedAppended (by decide), rfl,
   c6_mutually_exclusive.2 jRedactedOnly vRedactedOnly rfl⟩

/-! ### C10 -/

/-- Analysis(type=..., vendor=..., url=..., content_hash=...) with encoding
omitted: external content only, no inline body. -/
def jAnalysisExternalNoEnc : AnalysisJson :=
  ⟨some ("transcription"), Option.none, Option.none, Option.none, some ("acme"),
   Option.none, Option.none, Option.none, Option.none,
   some ("https://example.com/t.json"), some (ContentHash.one ("sha256-x"))⟩

def jAnalysisExternalWithEnc : AnalysisJson :=
  { jAnalysisExternalNoEnc with encoding := some ("json") }

/-- C10 (confirmed): Analysis requires an encoding unconditionally. Any raw
field set without an encoding fails construction, even when content is
supplied externally via url plus content_hash and no inline body is given;
supplying an encoding makes the same external-content construction
succeed. -/
theorem c10_analysis_encoding_required :
    (∀ j : AnalysisJson, j.encoding = Option.none → isError (parseAnalysis j) = true)
    ∧ parseAnalysis jAnalysisExternalNoEnc
        = Except.error ("Field required: encoding")
    ∧ (∃ a, parseAnalysis jAnalysisExternalWithEnc = Except.ok a) := by
  refine ⟨?_, rfl, ⟨_, rfl⟩⟩
  intro j henc
  unfold parseAnalysis
  apply isError_bind; intro ty _
  apply isError_bind; intro vd _
  rw [henc]
  exact isError_bind_left _ rfl

theorem c10_analysis_encoding_required_witness :
    jAnalysisExternalNoEnc.encoding = Option.none
    ∧ isError (parseAnalysis jAnalysisExternalNoEnc) = true :=
  ⟨rfl, c10_analysis_encoding_required.1 jAnalysisExternalNoEnc rfl⟩

/-! ### C7 -/

/-- C7 (confirmed): the tag convention. add_tag followed by get_tag of the
same name returns the value; on first use add_tag appends exactly one
attachment of type tags whose map holds the new pair (created with an empty
map, then assigned); when a tags attachment with a dict body already
exists, add_tag rewrites that attachment's map in place, leaving the
attachment count unchanged; add_tag sets updated_at; and get_tag of an
unset name returns None, never an error. -/
theorem c7_tag_helpers :
    (∀ (now : DateTime) (v : VCon) (n val : String),
        get_tag (add_tag now v n val) n = some (JsonValue.str val))
    ∧ (∀ (now : DateTime) (v : VCon) (n val : String),
        find_attachment_by_type v ("tags") = Option.none →
        (add_tag now v n val).attachments
          = some (v.attachments.getD []
              ++ [⟨"tags", Option.none, Option.none, Option.none, Option.none,
                  Option.none, some (AttachBody.obj [(n, JsonValue.str val)]),
                  some Encoding.json, Option.none, Option.none⟩]))
    ∧ (∀ (now : DateTime) (v : VCon) (n val : String) (a : Attachment) (m : JsonObj),
        find_attachment_by_type v ("tags") = some a →
        a.body = some (AttachBody.obj m) →
        find_attachment_by_type (add_tag now v n val) ("tags")
            = some { a with
                body := some (AttachBody.obj (dictSet m n (JsonValue.str val))) }
        ∧ ((add_tag now v n val).attachments.getD []).length
            = (v.attachments.getD []).length)
    ∧ (∀ (now : DateTime) (v : VCon) (n val : String),
        (add_tag now v n val).updated_at = some now)
    ∧ (∀ (v : VCon) (n : String), find_attachment_by_type v ("tags") = Option.none →
        get_tag v n = Option.none)
    ∧ (∀ (v : VCon) (n : String) (a : Attachment) (m : JsonObj),
        find_attachment_by_type v ("tags") = some a →
        a.body = some (AttachBody.obj m) → dictGet m n = Option.none →
        get_tag v n = Option.none) := by
  refine ⟨?_, ?_, ?_, ?_, ?_, ?_⟩
  · intro now v n val
    unfold add_tag
    cases hf : find_attachment_by_type v ("tags") with
    | none =>
        have h0 : (v.attachments.getD []).find? (fun a => a.type == "tags")
            = Option.none := hf
        have ht : ((setTagOnAttachment newTagsAttachment n val).type == "tags")
            = true := by
          rw [setTagOnAttachment_type]
          rfl
        unfold get_tag find_attachment_by_type
        dsimp only
        rw [Option.getD_some, List.find?_append, h0, Option.none_or]
        simp only [List.find?_cons, ht, cond_true]
        exact get_tag_of_setTag newTagsAttachment n val
    | some a =>
        have h0 : (v.attachments.getD []).find? (fun x => x.type == "tags")
            = some a := hf
        have h1 := find?_setFirstTags (v.attachments.getD []) n val a h0
        unfold get_tag find_attachment_by_type
        dsimp only
        rw [Option.getD_some, h1]
        exact get_tag_of_setTag a n val
  · intro now v n val hf
    unfold add_tag
    rw [hf]
    rfl
  · intro now v n val a m hf hbody
    constructor
    · have h0 : (v.attachments.getD []).find? (fun x => x.type == "tags")
          = some a := hf
      have h1 := find?_setFirstTags (v.attachments.getD []) n val a h0
      unfold add_tag
      rw [hf]
      unfold find_attachment_by_type
      dsimp only
      rw [Option.getD_some, h1]
      unfold setTagOnAttachment
      rw [hbody]
    · unfold add_tag
      rw [hf]
      dsimp only
      rw [Option.getD_some]
      exact setFirstTags_length _ _ _
  · intro now v n val
    unfold add_tag
    cases hf : find_attachment_by_type v ("tags") <;> rfl
  · intro v n hf
    unfold get_tag
    rw [hf]
  · intro v n a m hf hbody hget
    unfold get_tag
    rw [hf]
    dsimp only
    rw [hbody]
    exact hget

def tagsAtt : Attachment :=
  ⟨"tags", Option.none, Option.none, Option.none, Option.none, Option.none,
   some (AttachBody.obj [("k1", JsonValue.str ("v1"))]), some Encoding.json,
   Option.none, Option.none⟩

def vWithTags : VCon :=
  ⟨VConVersion.v0_0_2, "u5", sampleDt, Option.none, Option.none, Option.none,
   Option.none, Option.none, [], some [], some [], some [tagsAtt], Option.none⟩

theorem c7_tag_helpers_witness :
    get_tag (add_tag sampleDt vWithTags ("category") ("support")) ("category")
      = some (JsonValue.str ("support"))
    ∧ (find_attachment_by_type vconAbsent ("tags") = Option.none
      ∧ (add_tag sampleDt vconAbsent ("category") ("support")).attachments
          = some ([]
              ++ [⟨"tags", Option.none, Option.none, Option.none, Option.none,
                  Option.none,
                  some (AttachBody.obj [("category", JsonValue.str ("support"))]),
                  some Encoding.json, Option.none, Option.none⟩]))
    ∧ (find_attachment_by_type vWithTags ("tags") = some tagsAtt
      ∧ tagsAtt.body = some (AttachBody.obj [("k1", JsonValue.str ("v1"))])
      ∧ (find_attachment_by_type (add_tag sampleDt vWithTags ("k2") ("v2")) ("tags")
            = some { tagsAtt with
                body := some (AttachBody.obj
                  (dictSet [("k1", JsonValue.str ("v1"))] ("k2")
                    (JsonValue.str ("v2")))) }
        ∧ ((add_tag sampleDt vWithTags ("k2") ("v2")).attachments.getD []).length
            = (vWithTags.attachments.getD []).length))
    ∧ (add_tag sampleDt vconAbsent ("a") ("b")).updated_at = some sampleDt
    ∧ (find_attachment_by_type vconAbsent ("tags") = Option.none
      ∧ get_tag vconAbsent ("missing") = Option.none)
    ∧ (dictGet [("k1", JsonValue.str ("v1"))] ("k9") = Option.none
      ∧ get_tag vWithTags ("k9") = Option.none) :=
  ⟨c7_tag_helpers.1 sampleDt vWithTags ("category") ("support"),
   ⟨rfl, c7_tag_helpers.2.1 sampleDt vconAbsent ("category") ("support") rfl⟩,
   ⟨rfl, rfl, c7_tag_helpers.2.2.1 sampleDt vWithTags ("k2") ("v2") tagsAtt
      [("k1", JsonValue.str ("v1"))] rfl rfl⟩,
   c7_tag_helpers.2.2.2.1 sampleDt vconAbsent ("a") ("b"),
   ⟨rfl, c7_tag_helpers.2.2.2.2.1 vconAbsent ("missing") rfl⟩,
   ⟨rfl, c7_tag_helpers.2.2.2.2.2 vWithTags ("k9") tagsAtt
      [("k1", JsonValue.str ("v1"))] rfl rfl rfl⟩⟩

/-! ### C8 -/

/-- C8 (confirmed): build_new yields a container with the freshly generated
identifier (never empty: the canonical rendering is 36 characters), a
created_at that parses back from its ISO text to the very datetime that was
current, and the four owned sequences parties, dialog, analysis and
attachments all empty. -/
theorem c8_build_new (r : Nat) (t : DateTime) (h : t.validB = true) :
    build_new r t = Except.ok
      (⟨VConVersion.v0_0_2, strUuid4 r, t, Option.none, Option.none, Option.none,
        Option.none, Option.none, [], some [], some [], some [],
        Option.none⟩ : VCon)
    ∧ strUuid4 r ≠ ""
    ∧ (strUuid4 r).length = 36
    ∧ fromisoformat (isoformat t) = some t := by
  refine ⟨?_, strUuid4_ne_empty r, strUuid4_length r, parseIso_isoformat h⟩
  unfold build_new parseVCon
  simp [req, ok_bind, decodeVConVersion, validate_date_format_iso h, mapME,
    validate_mutually_exclusive_fields, exclusiveCount]

theorem c8_build_new_witness :
    sampleDt.validB = true
    ∧ (build_new 7 sampleDt = Except.ok
        (⟨VConVersion.v0_0_2, strUuid4 7, sampleDt, Option.none, Option.none,
          Option.none, Option.none, Option.none, [], some [], some [], some [],
          Option.none⟩ : VCon)
      ∧ strUuid4 7 ≠ ""
      ∧ (strUuid4 7).length = 36
      ∧ fromisoformat (isoformat sampleDt) = some sampleDt) :=
  ⟨by decide, c8_build_new 7 sampleDt (by decide)⟩

end Vcon
